import Mathlib

/-
Verification of the SynMax Data Agent core (filter engine, analytical
operations, intent planner, plan executor) against its specification.

The development is a shallow embedding of the Python sources
(`src/analysis.py`, `src/planner.py`, `src/agent.py`).  Tables are lists of
rows of cell values; pandas frames are modelled rectangularly with cells
addressed by column name.  Python floats are modelled as exact rationals
(the arithmetic performed by the program is sums, means and comparisons on
data values, which float rounding does not change at the granularity of any
property proved here); `float('inf')` and `float('nan')` get their own
representations, with NaN identified with the missing value, as in pandas.
Fallible operations (pandas raising `KeyError` / `TypeError` / `IndexError`
/ `ValueError`) return `Except String`.
-/

namespace SynMax

/-- A cell value of a loaded table.  `null` is pandas missing data, which is
float NaN.  `intV`/`floatV` model Python ints and (finite) floats, floats as
exact rationals.  `infV` models the infinite floats.  `sqrtV q` is an exact
encoding of the irrational real `sign q * Real.sqrt |q|`, the form in which
standard deviations and Pearson correlations leave the rational field; such
values appear only in result tables, which the program never feeds back into
filters. -/
inductive Value where
  | null
  | intV (n : Int)
  | floatV (q : ℚ)
  | infV (neg : Bool)
  | strV (s : String)
  | sqrtV (q : ℚ)
deriving DecidableEq, Repr

/-- A pandas DataFrame: named columns over a list of rows.  Rows are lists of
cells aligned with `header`; a short row reads as missing on the right, which
never occurs for tables the program builds. -/
structure Table where
  header : List String
  rows : List (List Value)
deriving DecidableEq, Repr

/-- Index of a column name in a header, `none` when absent. -/
def colIdx (header : List String) (k : String) : Option Nat :=
  header.findIdx? (· == k)

/-- Read the cell of row `r` under column `k` (missing reads as `null`). -/
def getCellD (header : List String) (k : String) (r : List Value) : Value :=
  match colIdx header k with
  | some i => r.getD i .null
  | none => .null

/-- All values of column `k`, in row order. -/
def colValues (t : Table) (k : String) : List Value :=
  t.rows.map (getCellD t.header k)

/-- Decimal-ish rendering of a rational, standing in for Python's float
`repr`.  The exact float-to-text rendering is not modelled; no theorem
depends on the text of a numeric cell. -/
def ratStr (q : ℚ) : String :=
  if q.den = 1 then toString q.num ++ ".0" else toString q.num ++ "/" ++ toString q.den

/-- Python `str()` of a cell, as produced by `Series.astype(str)`.  Missing
data is float NaN, which stringifies to `"nan"`. -/
def pyStr : Value → String
  | .null => "nan"
  | .intV n => toString n
  | .floatV q => ratStr q
  | .infV false => "inf"
  | .infV true => "-inf"
  | .strV s => s
  | .sqrtV q => "sqrt " ++ ratStr q

/-- Numeric reading of a cell (finite values only). -/
def toQ? : Value → Option ℚ
  | .intV n => some (n : ℚ)
  | .floatV q => some q
  | _ => none

/-- Pandas elementwise `==` against a scalar: never raises; NaN compares
unequal to everything, ints and floats compare numerically, mismatched kinds
compare unequal. -/
def valEq : Value → Value → Bool
  | .null, _ => false
  | _, .null => false
  | .intV n, .intV m => n == m
  | .intV n, .floatV q => (n : ℚ) == q
  | .floatV q, .intV n => q == (n : ℚ)
  | .floatV q, .floatV r => q == r
  | .infV a, .infV b => a == b
  | .strV a, .strV b => a == b
  | .sqrtV a, .sqrtV b => a == b
  | _, _ => false

/-- Extended numeric line used for ordered comparisons with infinities. -/
inductive NumX where
  | ninf
  | fin (q : ℚ)
  | pinf
deriving DecidableEq

def toNumX? : Value → Option NumX
  | .intV n => some (.fin (n : ℚ))
  | .floatV q => some (.fin q)
  | .infV true => some .ninf
  | .infV false => some .pinf
  | _ => none

def numXLt : NumX → NumX → Bool
  | .ninf, .ninf => false
  | .ninf, _ => true
  | .fin _, .ninf => false
  | .fin a, .fin b => a < b
  | .fin _, .pinf => true
  | .pinf, _ => false

def numXLe (a b : NumX) : Bool := numXLt a b || a == b

/-- Pandas elementwise `<` against a scalar.  NaN compares false against
numbers; comparing a number with a string (or vice versa) raises a
`TypeError`, as does any comparison touching an aggregate-only `sqrtV`
value (such values never reach a filter in the program). -/
def valLt (a b : Value) : Except String Bool :=
  match a, b with
  | .strV x, .strV y => pure (decide (x < y))
  | .null, .intV _ => pure false
  | .null, .floatV _ => pure false
  | .null, .infV _ => pure false
  | .null, .null => pure false
  | .intV _, .null => pure false
  | .floatV _, .null => pure false
  | .infV _, .null => pure false
  | a, b =>
    match toNumX? a, toNumX? b with
    | some x, some y => pure (numXLt x y)
    | _, _ => .error "TypeError: unorderable value comparison"

/-- Pandas elementwise `<=` against a scalar (same error policy as `valLt`). -/
def valLe (a b : Value) : Except String Bool :=
  match a, b with
  | .strV x, .strV y => pure (decide (x ≤ y))
  | .null, .intV _ => pure false
  | .null, .floatV _ => pure false
  | .null, .infV _ => pure false
  | .null, .null => pure false
  | .intV _, .null => pure false
  | .floatV _, .null => pure false
  | .infV _, .null => pure false
  | a, b =>
    match toNumX? a, toNumX? b with
    | some x, some y => pure (numXLe x y)
    | _, _ => .error "TypeError: unorderable value comparison"

/-- `Series.isin`: membership never raises; missing data does match a
missing entry of the probe list (pandas `isin` matches NaN). -/
def pyIsin (x : Value) (l : List Value) : Bool :=
  match x with
  | .null => l.contains .null
  | x => l.any (fun v => valEq x v)

/-- ASCII whitespace, as stripped by Python's `int`/`float`/`str.strip`. -/
def isSpaceChar (c : Char) : Bool :=
  c = ' ' || c = '\t' || c = '\n' || c = '\r' || c = '\x0b' || c = '\x0c'

/-- Strip leading and trailing whitespace from a character list. -/
def stripWs (cs : List Char) : List Char :=
  ((cs.dropWhile isSpaceChar).reverse.dropWhile isSpaceChar).reverse

/-- Charwise `str.lower()` (ASCII scope, like the rest of the model). -/
def strLower (s : String) : String := String.mk (s.toList.map Char.toLower)

/-- Charwise `str.upper()`. -/
def strUpper (s : String) : String := String.mk (s.toList.map Char.toUpper)

/-- Charwise `str.strip()`. -/
def strTrim (s : String) : String := String.mk (stripWs s.toList)

/-- Charwise `str.startswith` (Lean's byte-based `String.startsWith` does
not reduce in the kernel). -/
def strStarts (s pre : String) : Bool := pre.toList.isPrefixOf s.toList

/-- Charwise `str.endswith`. -/
def strEnds (s suf : String) : Bool :=
  suf.toList.reverse.isPrefixOf s.toList.reverse

/-- Contiguous-substring test on character lists. -/
def listSub (needle : List Char) : List Char → Bool
  | [] => needle.isEmpty
  | c :: t => needle.isPrefixOf (c :: t) || listSub needle t

/-- Python `needle in hay` on strings. -/
def pyIn (needle hay : String) : Bool :=
  listSub needle.toList hay.toList

/-- Case-insensitive substring test, modelling
`Series.str.contains(pat, case=False)`.  Pandas reads the pattern as a
regular expression; for patterns free of regex metacharacters (every pattern
the planner can produce matches `[a-z0-9_/\-]+`) regex search coincides with
substring search, and only such patterns appear in the theorems below. -/
def strContainsCI (hay pat : String) : Bool :=
  listSub (strLower pat).toList (strLower hay).toList

/-- The recognised keys of a dict-valued filter entry
(`src/analysis.py:14-29`).  A key is present when its field is `some`;
unknown dict keys are not observable by `apply_filters` and are omitted. -/
structure PredDict where
  between : Option (Value × Value) := none
  isin : Option (List Value) := none
  containsP : Option Value := none
  startswithP : Option Value := none
  endswithP : Option Value := none
  gt : Option Value := none
  gte : Option Value := none
  lt : Option Value := none
  lte : Option Value := none
deriving DecidableEq, Repr

/-- A FilterSpec entry: a literal (equality) or a predicate dict. -/
inductive FilterVal where
  | lit (v : Value)
  | pred (p : PredDict)
deriving DecidableEq, Repr

/-- A FilterSpec: a Python dict in insertion order. -/
abbrev FilterSpec := List (String × FilterVal)

/-- Conjunction of two boolean masks. -/
def andMask (a b : List Bool) : List Bool := a.zipWith (· && ·) b

/-- Keep the rows whose mask entry is `true`. -/
def maskFilter (t : Table) (m : List Bool) : Table :=
  ⟨t.header, ((t.rows.zip m).filter (fun rm => rm.2)).map (fun rm => rm.1)⟩

/-- Elementwise comparison of a column against a scalar (left to right,
first failure raises, as a vectorised pandas comparison does). -/
def seriesCmp (op : Value → Value → Except String Bool) :
    List Value → Value → Except String (List Bool)
  | [], _ => pure []
  | x :: t, v => do
    let b ← op x v
    let r ← seriesCmp op t v
    pure (b :: r)

/-- Masks of the dict-valued predicates over the column values `s`, combined
conjunctively, evaluated in the fixed source order `between`, `in`,
`contains`, `startswith`, `endswith`, `gt`, `gte`, `lt`, `lte`
(`src/analysis.py:15-29`).  Each mask is computed over all of `s`, as pandas
evaluates every comparison on the full (index-aligned) series. -/
def predMask (p : PredDict) (s : List Value) : Except String (List Bool) := do
  let full := s.map (fun _ => true)
  let m1 ← match p.between with
    | none => pure full
    | some (lo, hi) => do
        let a ← seriesCmp (fun x v => valLe v x) s lo
        let b ← seriesCmp valLe s hi
        pure (andMask a b)
  let m2 := match p.isin with
    | none => full
    | some l => s.map (fun x => pyIsin x l)
  let m3 := match p.containsP with
    | none => full
    | some v => s.map (fun x => strContainsCI (pyStr x) (pyStr v))
  let m4 := match p.startswithP with
    | none => full
    | some v => s.map (fun x => strStarts (pyStr x) (pyStr v))
  let m5 := match p.endswithP with
    | none => full
    | some v => s.map (fun x => strEnds (pyStr x) (pyStr v))
  let m6 ← match p.gt with
    | none => pure full
    | some v => seriesCmp (fun x w => valLt w x) s v
  let m7 ← match p.gte with
    | none => pure full
    | some v => seriesCmp (fun x w => valLe w x) s v
  let m8 ← match p.lt with
    | none => pure full
    | some v => seriesCmp valLt s v
  let m9 ← match p.lte with
    | none => pure full
    | some v => seriesCmp valLe s v
  pure (andMask m1 (andMask m2 (andMask m3 (andMask m4
    (andMask m5 (andMask m6 (andMask m7 (andMask m8 m9))))))))

/-- One iteration of the `for k, v in filters.items()` loop of
`apply_filters`: keys absent from the columns are skipped, a literal narrows
by elementwise equality, a dict narrows by the conjunction of its
predicates. -/
def applyFilterEntry (data : Table) (k : String) (v : FilterVal) :
    Except String Table :=
  if data.header.contains k then
    let s := colValues data k
    match v with
    | .lit w => pure (maskFilter data (s.map (fun x => valEq x w)))
    | .pred p => do
        let m ← predMask p s
        pure (maskFilter data m)
  else
    pure data

/-- `apply_filters(df, filters)` (`src/analysis.py:6-32`).  The initial
`df.copy()` is the identity in this pure model; the allocation it performs
is modelled separately by `applyFiltersAlloc`.  An empty spec (or a `None`
spec, which the source treats identically via `if not filters`) returns the
copy unchanged. -/
def applyFilters (df : Table) (filters : FilterSpec) : Except String Table :=
  filters.foldlM (fun data kv => applyFilterEntry data kv.1 kv.2) df

/-- Heap view of `apply_filters`: the first line `data = df.copy()` allocates
a fresh frame, so the returned object is distinct from the argument.  Stores
are lists of tables and references are indices; the result is appended as a
fresh object at index `store.length`. -/
def applyFiltersAlloc (store : List Table) (i : Nat) (filters : FilterSpec) :
    Except String (List Table × Nat) :=
  match applyFilters (store.getD i ⟨[], []⟩) filters with
  | .ok t => .ok (store ++ [t], store.length)
  | .error e => .error e

/-! ### Aggregation (`src/analysis.py:34-48`) -/

/-- The aggregation kinds `aggregate` accepts (`src/analysis.py:38`). -/
def validOps : List String := ["count", "sum", "mean", "min", "max", "median", "std"]

/-- Python `dict.get` over an insertion-ordered association list. -/
def dictGet (l : List (String × String)) (k : String) : Option String :=
  (l.find? (fun kv => kv.1 == k)).map (fun kv => kv.2)

/-- Is the cell a Python int? -/
def isIntV : Value → Bool
  | .intV _ => true
  | _ => false

/-- All finite numeric readings, failing on any string/inf/sqrt cell. -/
def asNums? (vs : List Value) : Option (List ℚ) := vs.mapM toQ?

/-- All string readings, failing on any non-string cell. -/
def asStrs? (vs : List Value) : Option (List String) :=
  vs.mapM (fun v => match v with | .strV s => some s | _ => none)

/-- Stable insertion into a sorted list of rationals. -/
def insertQ (x : ℚ) : List ℚ → List ℚ
  | [] => [x]
  | y :: t => if x ≤ y then x :: y :: t else y :: insertQ x t

/-- Insertion sort on rationals. -/
def sortQ : List ℚ → List ℚ
  | [] => []
  | x :: t => insertQ x (sortQ t)

/-- Minimum of a nonempty rational list (0 for the empty list, unused). -/
def minQ (l : List ℚ) : ℚ := (sortQ l).getD 0 0

/-- Maximum of a nonempty rational list (0 for the empty list, unused). -/
def maxQ (l : List ℚ) : ℚ := (sortQ l).getD ((sortQ l).length - 1) 0

/-- Lexicographically least string of a nonempty list ("" for empty). -/
def minS (l : List String) : String :=
  l.foldl (fun a b => if decide (b < a) then b else a) (l.headD "")

/-- Lexicographically greatest string of a nonempty list ("" for empty). -/
def maxS (l : List String) : String :=
  l.foldl (fun a b => if decide (a < b) then b else a) (l.headD "")

/-- Median of a rational list, pandas convention (mean of the two middle
elements for even length). -/
def medianQ (l : List ℚ) : ℚ :=
  let s := sortQ l
  let n := s.length
  if n % 2 = 1 then s.getD (n / 2) 0
  else (s.getD (n / 2 - 1) 0 + s.getD (n / 2) 0) / 2

/-- Sum that is an int exactly when the column dtype is int64, i.e. when
every cell (nulls included) is an int. -/
def numSum (allCells nn : List Value) (qs : List ℚ) : Value :=
  if allCells.all isIntV && nn.length == allCells.length then .intV ((qs.map (fun q => q.num)).sum)
  else .floatV qs.sum

/-- One aggregation kind applied to a column's values (`agg` semantics).
Nulls are dropped first; `count` counts non-nulls; `sum` of an all-string
column concatenates and an empty sum is integer 0; `mean`/`median` of no
data is NaN; `std` is the sample deviation (pandas default ddof=1 for the
generic `agg`, NaN for fewer than two points), its irrational value encoded
exactly by `sqrtV`; mixing strings with numbers raises a TypeError, as does
an infinite float (a model limit: no theorem exercises infinities here). -/
def aggOp (o : String) (vs : List Value) : Except String Value :=
  let nn := vs.filter (fun v => !(v == Value.null))
  if o == "count" then pure (.intV nn.length)
  else if o == "sum" then
    match asNums? nn with
    | some qs => pure (numSum vs nn qs)
    | none =>
      match asStrs? nn with
      | some ss => pure (if ss.isEmpty then .intV 0 else .strV (String.join ss))
      | none => .error "TypeError: unsupported sum"
  else if o == "mean" then
    if nn.isEmpty then pure .null
    else match asNums? nn with
      | some qs => pure (.floatV (qs.sum / qs.length))
      | none => .error "TypeError: could not compute mean"
  else if o == "min" then
    if nn.isEmpty then pure .null
    else match asNums? nn with
      | some qs => pure (if vs.all isIntV then .intV (minQ qs).num else .floatV (minQ qs))
      | none =>
        match asStrs? nn with
        | some ss => pure (.strV (minS ss))
        | none => .error "TypeError: could not compute min"
  else if o == "max" then
    if nn.isEmpty then pure .null
    else match asNums? nn with
      | some qs => pure (if vs.all isIntV then .intV (maxQ qs).num else .floatV (maxQ qs))
      | none =>
        match asStrs? nn with
        | some ss => pure (.strV (maxS ss))
        | none => .error "TypeError: could not compute max"
  else if o == "median" then
    if nn.isEmpty then pure .null
    else match asNums? nn with
      | some qs => pure (.floatV (medianQ qs))
      | none => .error "TypeError: could not compute median"
  else if o == "std" then
    if nn.length ≤ 1 then pure .null
    else match asNums? nn with
      | some qs =>
        let μ := qs.sum / qs.length
        pure (.sqrtV ((qs.map (fun x => (x - μ) ^ 2)).sum / (qs.length - 1 : ℚ)))
      | none => .error "TypeError: could not compute std"
  else .error ("unknown aggregation " ++ o)

/-- First-occurrence deduplication with an accumulator of seen keys. -/
def dedupAcc (seen : List (List Value)) : List (List Value) → List (List Value)
  | [] => []
  | x :: t => if seen.contains x then dedupAcc seen t
              else x :: dedupAcc (x :: seen) t

/-- The group key of a row: its values under the group-by columns. -/
def rowKey (header : List String) (gb : List String) (r : List Value) :
    List Value :=
  gb.map (fun g => getCellD header g r)

/-- Distinct group keys of `groupby(gb, dropna=False)` — missing values are
valid keys.  Pandas emits groups in sorted key order; key order is
immaterial to every property proved here and the model uses first
occurrence. -/
def groupKeys (data : Table) (gb : List String) : List (List Value) :=
  dedupAcc [] (data.rows.map (rowKey data.header gb))

/-- The rows of one group (NaN keys group together, as in pandas). -/
def groupRows (data : Table) (gb : List String) (κ : List Value) :
    List (List Value) :=
  data.rows.filter (fun r => rowKey data.header gb r == κ)

/-- `left.merge(right, on, how='left')`: every left row is kept; the
non-key columns of the first right row with the same key values are
appended (nulls when none matches — right keys are unique in every use
here, so the first match is the match).  Pandas joins NaN keys to NaN keys,
which structural equality of `Value.null` models. -/
def mergeLeft (left right : Table) (onCols : List String) : Table :=
  let rcols := right.header.filter (fun c => !(onCols.contains c))
  ⟨left.header ++ rcols,
   left.rows.map (fun lr =>
     let key := onCols.map (fun g => getCellD left.header g lr)
     match right.rows.find? (fun rr => rowKey right.header onCols rr == key) with
     | some rr => lr ++ rcols.map (fun c => getCellD right.header c rr)
     | none => lr ++ rcols.map (fun _ => Value.null))⟩

/-- The grouped branch of `aggregate` (`src/analysis.py:39-43`): group the
filtered data (missing keys are kept as groups), aggregate each requested
column per group, and when the ops map also requests the wildcard row count,
compute group sizes and left-merge the aggregates onto them, preserving
every group of the size count.  A group-by or aggregate column absent from
the frame raises a KeyError. -/
def aggregateGrouped (data : Table) (gb : List String)
    (ops aggMap : List (String × String)) : Except String Table := do
  if gb.all (fun g => data.header.contains g) then
    if aggMap.all (fun co => data.header.contains co.1) then do
      let outRows ← (groupKeys data gb).mapM (fun κ => do
        let cells ← aggMap.mapM (fun co =>
          aggOp co.2 ((groupRows data gb κ).map (getCellD data.header co.1)))
        pure (κ ++ cells))
      let outT : Table := ⟨gb ++ aggMap.map (fun co => co.1), outRows⟩
      if dictGet ops "*" == some "count" then
        let counts : Table :=
          ⟨gb ++ ["row_count"],
           (groupKeys data gb).map (fun κ =>
             κ ++ [Value.intV (groupRows data gb κ).length])⟩
        pure (mergeLeft counts outT gb)
      else
        pure outT
    else .error "KeyError: aggregation column"
  else .error "KeyError: group column"

/-- The ungrouped branch of `aggregate` (`src/analysis.py:44-47`):
`data.agg(agg_map).to_frame().T` is one row of whole-column aggregates, with
a `row_count` column inserted in front when the ops map requests the
wildcard count. -/
def aggregateUngrouped (data : Table) (ops aggMap : List (String × String)) :
    Except String Table := do
  if aggMap.all (fun co => data.header.contains co.1) then do
    let cells ← aggMap.mapM (fun co =>
      aggOp co.2 (colValues data co.1))
    let outT : Table := ⟨aggMap.map (fun co => co.1), [cells]⟩
    if dictGet ops "*" == some "count" then
      pure ⟨"row_count" :: outT.header, [Value.intV data.rows.length :: cells]⟩
    else
      pure outT
  else .error "KeyError: aggregation column"

/-- `aggregate(df, group_by, ops, filters)` (`src/analysis.py:34-48`).
Filters first; an empty (or `None`) ops map returns the filtered data
unchanged; otherwise the ops map is narrowed to real columns with known
aggregation kinds and dispatched by grouping. -/
def aggregate (df : Table) (group_by : List String)
    (ops : List (String × String)) (filters : FilterSpec) :
    Except String Table := do
  let data ← applyFilters df filters
  if ops.isEmpty then
    pure data
  else
    let aggMap := ops.filter (fun co => co.1 != "*" && validOps.contains co.2)
    if group_by.isEmpty then aggregateUngrouped data ops aggMap
    else aggregateGrouped data group_by ops aggMap

/-! ### Correlation, outliers, sorting, metadata (`src/analysis.py:50-104`) -/

/-- Is a loaded column of numeric dtype (`select_dtypes(include=['number'])`)?
Ints, finite and infinite floats and missing data are numeric cells. -/
def numericCol (vs : List Value) : Bool :=
  vs.all (fun v => match v with
    | .intV _ | .floatV _ | .infV _ | .null | .sqrtV _ => true
    | _ => false)

/-- The numeric columns of a table, in header order. -/
def numericCols (t : Table) : List String :=
  t.header.filter (fun k => numericCol (colValues t k))

/-- Pairwise complete observations of two columns as rationals (pandas
`corr` drops pairs with a missing side; infinite cells are treated as
missing, a model limit no theorem exercises). -/
def pairObs (xs ys : List Value) : List (ℚ × ℚ) :=
  (xs.zip ys).filterMap (fun p =>
    match toQ? p.1, toQ? p.2 with
    | some a, some b => some (a, b)
    | _, _ => none)

/-- Pearson correlation of two columns, exactly encoded: `r = cov/√(vx·vy)`
is `sqrtV (sign cov * cov²/(vx·vy))`; constant or too-short columns give
NaN. -/
def pearson (xs ys : List Value) : Value :=
  let ps := pairObs xs ys
  if ps.length < 2 then .null
  else
    let n : ℚ := ps.length
    let mx := (ps.map (fun p => p.1)).sum / n
    let my := (ps.map (fun p => p.2)).sum / n
    let cov := (ps.map (fun p => (p.1 - mx) * (p.2 - my))).sum
    let vx := (ps.map (fun p => (p.1 - mx) ^ 2)).sum
    let vy := (ps.map (fun p => (p.2 - my) ^ 2)).sum
    if vx * vy = 0 then .null
    else .sqrtV (if cov < 0 then -(cov ^ 2 / (vx * vy)) else cov ^ 2 / (vx * vy))

/-- `correlations(df, cols)` (`src/analysis.py:50-56`): restrict to numeric
columns, further to the requested ones present among them when that leaves
any, and produce the full symmetric matrix.  The pandas row index is
materialised as a leading `column` column. -/
def correlations (df : Table) (cols : List String) : Table :=
  let num := numericCols df
  let cs := if cols.isEmpty then num
            else
              let picked := cols.filter (fun c => num.contains c)
              if picked.isEmpty then num else picked
  ⟨"column" :: cs,
   cs.map (fun ci =>
     .strV ci :: cs.map (fun cj => pearson (colValues df ci) (colValues df cj)))⟩

/-! ### Python numeric literal parsing (`int(s)` / `float(s)`) -/


/-- Continue a digit run whose first digit has been consumed, allowing a
single underscore between digits (Python numeric-literal grammar); fails on
a misplaced underscore or any other character. -/
def pudGo (acc : Nat) : List Char → Option Nat
  | [] => some acc
  | '_' :: c :: t =>
    if c.isDigit then pudGo (acc * 10 + (c.toNat - 48)) t else none
  | c :: t =>
    if c.isDigit then pudGo (acc * 10 + (c.toNat - 48)) t else none

/-- Parse a full digit run with underscores (the whole input). -/
def parseUDigits : List Char → Option Nat
  | [] => none
  | c :: t => if c.isDigit then pudGo (c.toNat - 48) t else none

/-- Greedy scan of a digit run with underscores, returning its value, its
digit count and the unconsumed rest. -/
def pudScan (acc k : Nat) : List Char → Nat × Nat × List Char
  | [] => (acc, k, [])
  | '_' :: c :: t =>
    if c.isDigit then pudScan (acc * 10 + (c.toNat - 48)) (k + 1) t
    else (acc, k, '_' :: c :: t)
  | c :: t =>
    if c.isDigit then pudScan (acc * 10 + (c.toNat - 48)) (k + 1) t
    else (acc, k, c :: t)

/-- Python `int(s)`: optional sign around an underscore-grouped digit run,
whitespace stripped; anything else raises (the caller's bare `except`
turns that into a fallthrough). -/
def pyParseInt (s : String) : Option Int :=
  match stripWs s.toList with
  | '+' :: t => (parseUDigits t).map (fun n => (n : Int))
  | '-' :: t => (parseUDigits t).map (fun n => -(n : Int))
  | t => (parseUDigits t).map (fun n => (n : Int))

/-- The value of a Python `float(s)` conversion. -/
inductive PyFloat where
  | fin (q : ℚ)
  | inf (neg : Bool)
  | nan
deriving DecidableEq, Repr

/-- Mantissa and exponent of a float literal body (sign removed, already
lowercased): `digits [. digits]` or `. digits`, then optional
`e [sign] digits`.  Returns the exact rational value.  Floats are modelled
as exact rationals; the double rounding of CPython is not modelled and no
theorem depends on a value it would change. -/
def parseFloatBody (cs : List Char) : Option ℚ :=
  let (ip, ipn, r1) := pudScan 0 0 cs
  let (mant, ok, r2) :=
    match r1 with
    | '.' :: t =>
      let (fp, fpn, r2) := pudScan 0 0 t
      ((ip : ℚ) + (fp : ℚ) / (10 : ℚ) ^ fpn, ipn + fpn != 0, r2)
    | r => ((ip : ℚ), ipn != 0, r)
  if !ok then none
  else match r2 with
    | [] => some mant
    | 'e' :: t =>
      let (sgn, t') : Bool × List Char :=
        match t with
        | '+' :: u => (false, u)
        | '-' :: u => (true, u)
        | u => (false, u)
      match parseUDigits t' with
      | some e => some (if sgn then mant / (10 : ℚ) ^ e else mant * (10 : ℚ) ^ e)
      | none => none
    | _ => none

/-- Python `float(s)`: strip, lowercase, optional sign, then `inf`,
`infinity`, `nan` or a numeric literal. -/
def pyParseFloat (s : String) : Option PyFloat :=
  let cs := (stripWs s.toList).map Char.toLower
  let (neg, body) : Bool × List Char :=
    match cs with
    | '+' :: t => (false, t)
    | '-' :: t => (true, t)
    | t => (false, t)
  if body = "inf".toList || body = "infinity".toList then some (.inf neg)
  else if body = "nan".toList then some .nan
  else (parseFloatBody body).map (fun q => .fin (if neg then -q else q))

/-! ### Z-score outliers (`src/analysis.py:58-61`) -/

/-- `df[col].astype(float)` as optional rationals (`none` is NaN): ints and
floats pass through, missing stays missing, strings go through `float()`
(raising `ValueError` when unparseable).  Infinite values are a model limit
(no theorem exercises them). -/
def colFloats (t : Table) (k : String) : Except String (List (Option ℚ)) :=
  (colValues t k).mapM (fun v =>
    match v with
    | .null => pure none
    | .intV n => pure (some (n : ℚ))
    | .floatV q => pure (some q)
    | .strV s =>
      match pyParseFloat s with
      | some (.fin q) => pure (some q)
      | some .nan => pure none
      | some (.inf _) => .error "model: infinite values not supported here"
      | none => .error "ValueError: could not convert string to float"
    | .infV _ => .error "model: infinite values not supported here"
    | .sqrtV _ => .error "model: aggregate-only value in z-score input")

/-- The non-missing values of the cast column, as reals. -/
def presentVals (os : List (Option ℚ)) : List ℝ :=
  (os.filterMap id).map (fun q => (q : ℝ))

/-- `s.mean()`: mean over the non-missing values (NaN-skipping; the empty
case is Lean's 0/0 = 0, and an all-missing column selects no rows anyway). -/
noncomputable def zmean (os : List (Option ℚ)) : ℝ :=
  (presentVals os).sum / (presentVals os).length

/-- `s.std(ddof=0)`: the population standard deviation — squared deviations
summed over the non-missing values and divided by their count N, not N−1 —
under a real square root. -/
noncomputable def zstd (os : List (Option ℚ)) : ℝ :=
  Real.sqrt
    (((presentVals os).map (fun x => (x - zmean os) ^ 2)).sum /
      (presentVals os).length)

/-- The selection mask of `zscore_outliers`: per-row
`z = (x - mean) / (std(ddof=0) + 1e-9)`, keeping rows with
`|z| ≥ threshold`; a missing value has a NaN z-score and is never kept. -/
noncomputable def zscoreSelect (os : List (Option ℚ)) (t : ℚ) : List Bool :=
  os.map (fun o =>
    match o with
    | none => false
    | some q => decide (|((q : ℝ) - zmean os) / (zstd os + 1e-9)| ≥ (t : ℝ)))

/-- `zscore_outliers(df, col, threshold)` (`src/analysis.py:58-61`). -/
noncomputable def zscore_outliers (df : Table) (col : String) (threshold : ℚ) :
    Except String Table := do
  if df.header.contains col then do
    let os ← colFloats df col
    pure (maskFilter df (zscoreSelect os threshold))
  else .error ("KeyError: " ++ col)

/-! ### Isolation forest (`src/analysis.py:63-71`) -/

/-- `iforest_outliers`.  The survivors of the null-drop feed a seeded
sklearn `IsolationForest`, an external library whose per-row decisions are
not modelled; the model flags no rows (no claim concerns the flags).  The
empty-survivor case returns an empty frame with the original columns, as
the source does. -/
def iforest_outliers (df : Table) (_cols : List String) (_contamination : ℚ) :
    Table :=
  ⟨df.header, []⟩

/-! ### Sort-top (`src/analysis.py:73-78`) -/

/-- Total comparison on cells used to model `sort_values`.  Pandas raises on
incomparable mixtures; the model orders kinds (numbers, then strings)
arbitrarily instead, and no theorem depends on a sort order. -/
def valCmp (a b : Value) : Ordering :=
  match a, b with
  | .strV x, .strV y => compare x y
  | .sqrtV x, .sqrtV y => compare x y
  | a, b =>
    match toNumX? a, toNumX? b with
    | some x, some y => if numXLt x y then .lt else if x == y then .eq else .gt
    | _, _ =>
      compare
        (match a with | .strV _ => 1 | .sqrtV _ => 2 | .null => 3 | _ => 0)
        (match b with | .strV _ => 1 | .sqrtV _ => 2 | .null => 3 | _ => 0)

/-- Per-cell sort comparison: missing data sorts last in either direction
(pandas `na_position='last'`); otherwise the direction flips `valCmp`. -/
def cellOrd (asc : Bool) (a b : Value) : Ordering :=
  match a, b with
  | .null, .null => .eq
  | .null, _ => .gt
  | _, .null => .lt
  | a, b => if asc then valCmp a b else (valCmp a b).swap

/-- Lexicographic comparison of two rows under the sort columns. -/
def rowOrd (header bys : List String) (asc : Bool) (r1 r2 : List Value) :
    Ordering :=
  bys.foldl
    (fun o g =>
      if o == Ordering.eq then cellOrd asc (getCellD header g r1) (getCellD header g r2)
      else o) .eq

/-- Stable insertion into a sorted list: the new element goes before the
first element not strictly below it. -/
def insSorted (lt : α → α → Bool) (x : α) : List α → List α
  | [] => [x]
  | y :: t => if lt y x then y :: insSorted lt x t else x :: y :: t

/-- Stable insertion sort (models `sort_values`; pandas's default quicksort
is unstable on ties, and no theorem depends on tie order). -/
def insertionSortBy (lt : α → α → Bool) : List α → List α
  | [] => []
  | x :: t => insSorted lt x (insertionSortBy lt t)

/-- `df.head(n)` (a negative `n` drops that many rows from the end). -/
def pyHead (t : Table) (n : Int) : Table :=
  if 0 ≤ n then ⟨t.header, t.rows.take n.toNat⟩
  else ⟨t.header, t.rows.take (t.rows.length - n.natAbs)⟩

/-- `df.tail(n)` (a negative `n` drops that many rows from the front). -/
def pyTail (t : Table) (n : Int) : Table :=
  if 0 ≤ n then ⟨t.header, t.rows.drop (t.rows.length - n.toNat)⟩
  else ⟨t.header, t.rows.drop n.natAbs⟩

/-- `sort_top(df, by, top_n, ascending, filters)` (`src/analysis.py:73-78`):
filter, drop unknown sort columns, and either fall back to an unsorted head
or sort (one shared direction) and take the head. -/
def sort_top (df : Table) (bys : List String) (top_n : Int) (ascending : Bool)
    (filters : FilterSpec) : Except String Table := do
  let data ← applyFilters df filters
  let bys := bys.filter (fun c => data.header.contains c)
  if bys.isEmpty then pure (pyHead data top_n)
  else
    pure (pyHead
      ⟨data.header,
       insertionSortBy (fun r1 r2 => rowOrd data.header bys ascending r1 r2 == Ordering.lt)
         data.rows⟩
      top_n)

/-! ### Metadata operations (`src/analysis.py:80-103`) -/

def meta_shape (df : Table) : Table :=
  ⟨["rows", "columns"], [[.intV df.rows.length, .intV df.header.length]]⟩

/-- The pandas dtype of a column, derived from its cells in this model
(pandas stores it; the derivation agrees on loaded data): an all-int column
is `int64`, numeric-with-missing is `float64`, anything else `object`. -/
def colDtype (vs : List Value) : String :=
  if vs.all isIntV then "int64"
  else if numericCol vs then "float64"
  else "object"

def meta_columns (df : Table) : Table :=
  ⟨["column", "dtype"],
   df.header.map (fun k => [.strV k, .strV (colDtype (colValues df k))])⟩

def meta_dtypes (df : Table) : Table := meta_columns df

def meta_head (df : Table) (n : Int) : Table := pyHead df n

def meta_tail (df : Table) (n : Int) : Table := pyTail df n

/-- One row of `describe().T` for a numeric column: count, mean, sample std
(exact via `sqrtV`), min, quartiles (linear interpolation), max. -/
def describeRow (k : String) (vs : List Value) : List Value :=
  let qs := vs.filterMap toQ?
  let n := qs.length
  let s := sortQ qs
  let q := fun (p : ℚ) =>
    let pos := p * ((n : ℚ) - 1)
    let i := pos.floor.toNat
    let lo := s.getD i 0
    let hi := s.getD (i + 1) lo
    lo + (pos - pos.floor) * (hi - lo)
  [.strV k, .floatV (n : ℚ),
   if n = 0 then .null else .floatV (qs.sum / (n : ℚ)),
   if n ≤ 1 then .null
   else .sqrtV ((qs.map (fun x => (x - qs.sum / (n : ℚ)) ^ 2)).sum / ((n : ℚ) - 1)),
   if n = 0 then .null else .floatV (minQ qs),
   if n = 0 then .null else .floatV (q (1 / 4)),
   if n = 0 then .null else .floatV (q (1 / 2)),
   if n = 0 then .null else .floatV (q (3 / 4)),
   if n = 0 then .null else .floatV (maxQ qs)]

def meta_describe (df : Table) : Table :=
  let num := numericCols df
  if num.isEmpty then ⟨["note"], [[.strV "No numeric columns to describe."]]⟩
  else
    ⟨["column", "count", "mean", "std", "min", "25%", "50%", "75%", "max"],
     num.map (fun k => describeRow k (colValues df k))⟩

/-- First-occurrence deduplication of values under an equivalence. -/
def dedupByAcc (eqv : Value → Value → Bool) (seen : List Value) :
    List Value → List Value
  | [] => []
  | x :: t =>
    if seen.any (fun y => eqv y x) then dedupByAcc eqv seen t
    else x :: dedupByAcc eqv (x :: seen) t

/-- `unique_count(df, col)`: distinct non-missing values (`nunique` with
`dropna=True`, numeric 1 and 1.0 identified as pandas hashing does). -/
def unique_count (df : Table) (col : String) : Except String Table :=
  if df.header.contains col then
    let nn := (colValues df col).filter (fun v => !(v == Value.null))
    pure ⟨["column", "unique_count"],
          [[.strV col, .intV (dedupByAcc valEq [] nn).length]]⟩
  else .error ("KeyError: " ++ col)

/-- Value identity for `value_counts` categories: missing data is its own
category. -/
def valueMatches (a b : Value) : Bool :=
  if a == Value.null then b == Value.null else valEq a b

/-- `value_counts(df, col, n)` with `dropna=False`: categories with counts,
sorted by descending count (stably, by first occurrence on ties — pandas
leaves tie order unspecified), first `n` kept. -/
def value_counts (df : Table) (col : String) (n : Int) : Except String Table :=
  if df.header.contains col then
    let vs := colValues df col
    let distinct := dedupByAcc valueMatches [] vs
    let counted := distinct.map (fun v => (v, (vs.filter (fun w => valueMatches v w)).length))
    let sorted := insertionSortBy (fun a b => b.2 < a.2) counted
    let kept := if 0 ≤ n then sorted.take n.toNat
                else sorted.take (sorted.length - n.natAbs)
    pure ⟨[col, "count"], kept.map (fun p => [p.1, .intV p.2])⟩
  else .error ("KeyError: " ++ col)

/-- `missing_summary(df)`: per-column missing count and percentage, sorted
by descending missing count. -/
def missing_summary (df : Table) : Table :=
  let entries := df.header.map (fun k =>
    (k, ((colValues df k).filter (fun v => v == Value.null)).length))
  let sorted := insertionSortBy (fun a b => b.2 < a.2) entries
  ⟨["column", "missing", "missing_pct"],
   sorted.map (fun p =>
     [.strV p.1, .intV p.2,
      if df.rows.length = 0 then Value.null
      else .floatV (100 * (p.2 : ℚ) / (df.rows.length : ℚ))])⟩

/-- `duplicates_count(df)`: how many rows are repeats of an earlier row
(pandas `duplicated` matches missing to missing, as structural equality
does). -/
def duplicates_count (df : Table) : Table :=
  ⟨["duplicate_rows"], [[.intV (df.rows.length - (dedupAcc [] df.rows).length)]]⟩

/-- `group_count(df, group_by)` (`src/analysis.py:100-103`): unknown group
columns are dropped; with none left, a bare row count; otherwise sizes per
distinct key combination, missing keys included. -/
def group_count (df : Table) (group_by : List String) : Table :=
  let gb := group_by.filter (fun g => df.header.contains g)
  if gb.isEmpty then ⟨["row_count"], [[.intV df.rows.length]]⟩
  else
    ⟨gb ++ ["row_count"],
     (groupKeys df gb).map (fun κ => κ ++ [.intV (groupRows df gb κ).length])⟩

/-! ### Intent planner (`src/planner.py`)

The planner's regular expressions are emulated by hand as leftmost-match
scanners with the same greedy/backtracking behaviour on the character
classes involved; each emulator names the pattern it implements. -/

/-- `\w` of Python `re` (ASCII scope; planner input is lowercased ASCII). -/
def isWordChar (c : Char) : Bool := c.isAlphanum || c = '_'

/-- The class `[a-z0-9_ ]`. -/
def isClass1 (c : Char) : Bool := c.isLower || c.isDigit || c = '_' || c = ' '

/-- The class `[a-z0-9_/\-]`. -/
def isClass2 (c : Char) : Bool :=
  c.isLower || c.isDigit || c = '_' || c = '/' || c = '-'

/-- Numeric value of a digit run. -/
def digitsVal (ds : List Char) : Nat :=
  ds.foldl (fun a c => a * 10 + (c.toNat - 48)) 0

/-- `re.search(r'\b(20\d{2})\b', text)` (`_extract_year`): leftmost
word-bounded `20xx` token. -/
def findYearGo (prev : Option Char) : List Char → Option Int
  | [] => none
  | c :: t =>
    let bb := match prev with | none => true | some p => !isWordChar p
    (if bb && c = '2' then
      match t with
      | '0' :: d1 :: d2 :: rest =>
        if d1.isDigit && d2.isDigit &&
           (match rest with | [] => true | r :: _ => !isWordChar r) then
          some ((2000 + (d1.toNat - 48) * 10 + (d2.toNat - 48) : Nat) : Int)
        else none
      | _ => none
    else none).orElse (fun _ => findYearGo (some c) t)

def extractYear (text : String) : Option Int := findYearGo none text.toList

/-- `re.search(r'\b(\d{1,4})\b', text)` (`_extract_int`): leftmost
word-bounded digit run; a run longer than four digits cannot satisfy the
trailing boundary at any greedy length, so only full runs of length ≤ 4
match. -/
def findIntGo (prev : Option Char) : List Char → Option Int
  | [] => none
  | c :: t =>
    let bb := match prev with | none => true | some p => !isWordChar p
    if bb && c.isDigit then
      let run := c :: t.takeWhile Char.isDigit
      let rest := t.dropWhile Char.isDigit
      if run.length ≤ 4 &&
         (match rest with | [] => true | r :: _ => !isWordChar r) then
        some ((digitsVal run : Nat) : Int)
      else findIntGo (some c) t
    else findIntGo (some c) t

def extractInt (text : String) : Option Int := findIntGo none text.toList

/-! #### difflib (`SequenceMatcher` / `get_close_matches`)

`difflib` is standard-library code the planner calls; it is modelled at
full algorithmic fidelity for the ratios, with two innocuous deviations
noted inline: junk detection (inactive below 200 characters, and every
string involved here is far shorter) and float rounding (ratios are exact
rationals here). -/

/-- Twice the matched count over the total length, 1.0 for two empty
strings (`_calculate_ratio`). -/
def calcRatio (m total : Nat) : ℚ :=
  if total = 0 then 1 else mkRat (2 * m) total

/-- `real_quick_ratio`: upper bound from lengths alone. -/
def realQuickRatio (a b : List Char) : ℚ :=
  calcRatio (min a.length b.length) (a.length + b.length)

def countChar (l : List Char) (c : Char) : Nat :=
  (l.filter (fun d => d == c)).length

def dedupCharAcc (seen : List Char) : List Char → List Char
  | [] => []
  | c :: t =>
    if seen.contains c then dedupCharAcc seen t
    else c :: dedupCharAcc (c :: seen) t

/-- `quick_ratio`: multiset character intersection. -/
def quickRatio (a b : List Char) : ℚ :=
  calcRatio
    ((dedupCharAcc [] a).foldl
      (fun acc c => acc + min (countChar a c) (countChar b c)) 0)
    (a.length + b.length)

/-- Positions of a character in `b`, increasing (the `b2j` table; autojunk
is inactive for `|b| < 200`, which covers every use in this program). -/
def positionsOf (c : Char) (b : List Char) : List Nat :=
  (List.range b.length).filter (fun j => b.getD j ' ' == c)

/-- Lookup in the `j2len` row of the longest-match dynamic program. -/
def alGet (l : List (Nat × Nat)) (j : Nat) : Nat :=
  ((l.find? (fun p => p.1 == j)).map (fun p => p.2)).getD 0

/-- `SequenceMatcher.find_longest_match` (no junk): the classic
`j2len`-rolling dynamic program, returning `(besti, bestj, bestsize)`. -/
def findLongestMatch (a b : List Char) (alo ahi blo bhi : Nat) :
    Nat × Nat × Nat :=
  (((List.range ahi).drop alo).foldl
    (fun (st : List (Nat × Nat) × (Nat × Nat × Nat)) i =>
      let js := (positionsOf (a.getD i ' ') b).filter (fun j => blo ≤ j && j < bhi)
      js.foldl
        (fun (acc : List (Nat × Nat) × (Nat × Nat × Nat)) j =>
          let k := if j = 0 then 1 else alGet st.1 (j - 1) + 1
          let best := acc.2
          ((j, k) :: acc.1,
           if k > best.2.2 then (i - k + 1, j - k + 1, k) else best))
        ([], st.2))
    ([], (alo, blo, 0))).2

/-- Total matched characters over all matching blocks (the recursive
splitting of `get_matching_blocks`; `fuel` exceeds any possible recursion
depth).  With no junk the match-extension loops of the source are no-ops
and are omitted. -/
def mtGo (a b : List Char) : Nat → Nat → Nat → Nat → Nat → Nat
  | 0, _, _, _, _ => 0
  | fuel + 1, alo, ahi, blo, bhi =>
    let (i, j, k) := findLongestMatch a b alo ahi blo bhi
    if k = 0 then 0
    else k + mtGo a b fuel alo i blo j + mtGo a b fuel (i + k) ahi (j + k) bhi

/-- `SequenceMatcher.ratio()`. -/
def smRatio (a b : List Char) : ℚ :=
  calcRatio (mtGo a b (a.length + b.length + 1) 0 a.length 0 b.length)
    (a.length + b.length)

/-- `difflib.get_close_matches(word, possibilities, n, cutoff)`: candidates
pass the three staged ratio gates, then the `n` largest by
`(ratio, candidate)` tuple order are returned. -/
def getCloseMatches (word : String) (possibilities : List String) (n : Nat)
    (cutoff : ℚ) : List String :=
  let b := word.toList
  let scored := possibilities.filterMap (fun x =>
    let a := x.toList
    if cutoff ≤ realQuickRatio a b && cutoff ≤ quickRatio a b &&
       cutoff ≤ smRatio a b then
      some (smRatio a b, x)
    else none)
  ((insertionSortBy
      (fun p q => q.1 < p.1 || (q.1 == p.1 && decide (q.2 < p.2))) scored).take
    n).map (fun p => p.2)

/-! #### Column resolution and filter extraction -/

/-- `_first_present(cols, candidates)` (`src/planner.py:96-105`). -/
def firstPresent (cols candidates : List String) : Option String :=
  match candidates.find? (fun c => cols.contains c) with
  | some c => some c
  | none =>
    match candidates with
    | [] => none
    | c0 :: _ => (getCloseMatches c0 cols 1 (mkRat 7 10)).head?

/-- `_resolve_col_from_text(qpiece, cols)` (`src/planner.py:118-126`):
exact substring first, fuzzy (cutoff 0.8) second. -/
def resolveColFromText (qpiece : String) (cols : List String) :
    Option String :=
  let text := strLower qpiece
  match cols.find? (fun c => pyIn (strLower c) text) with
  | some c => some c
  | none => (getCloseMatches (strTrim text) cols 1 (mkRat 4 5)).head?

/-- `re.search(r'(?: by | per )([a-z0-9_ ]+)$', q)`: leftmost ` by `/` per `
whose remainder consists of the class to the end of the string. -/
def findByPerAnchored : List Char → Option String
  | [] => none
  | c :: t =>
    let l := c :: t
    let tryAt (kw : String) : Option String :=
      if kw.toList.isPrefixOf l then
        let rest := l.drop kw.length
        if !rest.isEmpty && rest.all isClass1 then some (String.mk rest) else none
      else none
    ((tryAt " by ").orElse (fun _ => tryAt " per ")).orElse
      (fun _ => findByPerAnchored t)

/-- `re.search(r'by ([a-z0-9_ ]+)', q)`: leftmost `by ` followed by a
nonempty class run (the group takes the maximal run). -/
def findByFallback : List Char → Option String
  | [] => none
  | c :: t =>
    let l := c :: t
    (if "by ".toList.isPrefixOf l then
      let run := (l.drop 3).takeWhile isClass1
      if run.isEmpty then none else some (String.mk run)
    else none).orElse (fun _ => findByFallback t)

/-- `_resolve_col_after_by_or_per(q, cols)` (`src/planner.py:128-134`). -/
def resolveColAfterByOrPer (q : String) (cols : List String) :
    Option String :=
  match (findByPerAnchored q.toList).orElse (fun _ => findByFallback q.toList) with
  | some g => resolveColFromText g cols
  | none => none

/-- `(?:top|largest)\s+(\d+)\s+rows?\s+by\s+([a-z0-9_ ]+)` attempted at one
position.  Every greedy element here is followed by a disjoint class, so
maximal munch is exact (the optional `s` of `rows?` likewise). -/
def matchTopAt (l : List Char) : Option (Nat × String) :=
  let afterKw : Option (List Char) :=
    if "top".toList.isPrefixOf l then some (l.drop 3)
    else if "largest".toList.isPrefixOf l then some (l.drop 7)
    else none
  match afterKw with
  | none => none
  | some r1 =>
    if (r1.takeWhile isSpaceChar).isEmpty then none else
    let r2 := r1.dropWhile isSpaceChar
    let ds := r2.takeWhile Char.isDigit
    if ds.isEmpty then none else
    let r3 := r2.dropWhile Char.isDigit
    if (r3.takeWhile isSpaceChar).isEmpty then none else
    let r4 := r3.dropWhile isSpaceChar
    if !("row".toList.isPrefixOf r4) then none else
    let r5 := r4.drop 3
    let r5 := match r5 with | 's' :: u => u | u => u
    if (r5.takeWhile isSpaceChar).isEmpty then none else
    let r6 := r5.dropWhile isSpaceChar
    if !("by".toList.isPrefixOf r6) then none else
    let r7 := r6.drop 2
    if (r7.takeWhile isSpaceChar).isEmpty then none else
    let r8 := r7.dropWhile isSpaceChar
    let g2 := r8.takeWhile isClass1
    if g2.isEmpty then none else some (digitsVal ds, String.mk g2)

/-- Leftmost match of the top-N pattern. -/
def findTop : List Char → Option (Nat × String)
  | [] => none
  | c :: t => (matchTopAt (c :: t)).orElse (fun _ => findTop t)

/-- `where\s+([a-z0-9_ ]+)\s*=\s*([a-z0-9_/\-]+)` attempted at one position,
with the regex's greedy backtracking over the whitespace run and the
space-absorbing first group made explicit; `\s*=` is deterministic because
`=` is not whitespace. -/
def matchWhereEqAt (l : List Char) : Option (String × String) :=
  if !("where".toList.isPrefixOf l) then none else
  let r0 := l.drop 5
  let wsMax := (r0.takeWhile isSpaceChar).length
  (List.range wsMax).findSome? (fun d =>
    let p1 := r0.drop (wsMax - d)
    let g1max := (p1.takeWhile isClass1).length
    (List.range g1max).findSome? (fun d2 =>
      let g1Len := g1max - d2
      let p2 := p1.drop g1Len
      let p3 := p2.dropWhile isSpaceChar
      match p3 with
      | '=' :: p4 =>
        let p5 := p4.dropWhile isSpaceChar
        let g2 := p5.takeWhile isClass2
        if g2.isEmpty then none
        else some (String.mk (p1.take g1Len), String.mk g2)
      | _ => none))

def findWhereEq : List Char → Option (String × String)
  | [] => none
  | c :: t => (matchWhereEqAt (c :: t)).orElse (fun _ => findWhereEq t)

/-- `where\s+([a-z0-9_ ]+)\s+contains\s+([a-z0-9_/\-]+)` attempted at one
position (the first group can absorb the word `contains`, so its greedy
backtracking is made explicit from longest on down). -/
def matchWhereContainsAt (l : List Char) : Option (String × String) :=
  if !("where".toList.isPrefixOf l) then none else
  let r0 := l.drop 5
  let wsMax := (r0.takeWhile isSpaceChar).length
  (List.range wsMax).findSome? (fun d =>
    let p1 := r0.drop (wsMax - d)
    let g1max := (p1.takeWhile isClass1).length
    (List.range g1max).findSome? (fun d2 =>
      let g1Len := g1max - d2
      let p2 := p1.drop g1Len
      if (p2.takeWhile isSpaceChar).isEmpty then none else
      let p3 := p2.dropWhile isSpaceChar
      if !("contains".toList.isPrefixOf p3) then none else
      let p4 := p3.drop 8
      if (p4.takeWhile isSpaceChar).isEmpty then none else
      let p5 := p4.dropWhile isSpaceChar
      let g2 := p5.takeWhile isClass2
      if g2.isEmpty then none
      else some (String.mk (p1.take g1Len), String.mk g2)))

def findWhereContains : List Char → Option (String × String)
  | [] => none
  | c :: t => (matchWhereContainsAt (c :: t)).orElse (fun _ => findWhereContains t)

/-- `_coerce_literal(s)` (`src/planner.py:154-161`): Python `int` first,
then `float`, then uppercase strings of length ≤ 5, else unchanged. -/
def coerceLiteral (s : String) : Value :=
  match pyParseInt s with
  | some n => .intV n
  | none =>
    match pyParseFloat s with
    | some (.fin q) => .floatV q
    | some (.inf b) => .infV b
    | some .nan => .null
    | none => if s.length ≤ 5 then .strV (strUpper s) else .strV s

/-- Python dict assignment `f[k] = v`: replace in place, else append. -/
def dictSetF (f : FilterSpec) (k : String) (v : FilterVal) : FilterSpec :=
  if (f.find? (fun kv => kv.1 == k)).isSome then
    f.map (fun kv => if kv.1 == k then (k, v) else kv)
  else f ++ [(k, v)]

/-- `_extract_filters(q, cols)` (`src/planner.py:136-152`): the equality
phrase stores the coerced stripped literal, the contains phrase stores a
`{'contains': val}` predicate; an unresolvable column leaves no entry. -/
def extractFilters (q : String) (cols : List String) : FilterSpec :=
  let f : FilterSpec := []
  let f := match findWhereEq q.toList with
    | some (g1, g2) =>
      match resolveColFromText g1 cols with
      | some col => dictSetF f col (.lit (coerceLiteral (strTrim g2)))
      | none => f
    | none => f
  match findWhereContains q.toList with
  | some (g1, g2) =>
    match resolveColFromText g1 cols with
    | some col => dictSetF f col (.pred { containsP := some (.strV (strTrim g2)) })
    | none => f
  | none => f

/-- A plan dict.  The source builds plain dicts with a `type` discriminant;
here every optional key is an `Option` field, `none` meaning the key is
absent (`by_` stands for the source's `by` key, a Lean keyword). -/
structure Plan where
  type : String
  col : Option String := none
  cols : Option (List String) := none
  by_ : Option (List String) := none
  group_by : Option (List String) := none
  ops : Option (List (String × String)) := none
  filters : Option FilterSpec := none
  top_n : Option Int := none
  ascending : Option Bool := none
  threshold : Option ℚ := none
  contamination : Option ℚ := none
  n : Option Int := none
deriving DecidableEq, Repr

/-- Python `n or default` on an optional int: `None` and `0` are falsy. -/
def pyOrInt (n : Option Int) (d : Int) : Int :=
  match n with
  | some k => if k = 0 then d else k
  | none => d

/-- `plan_from_nl(question, available_cols)` (`src/planner.py:4-92`): the
fixed-order rule cascade.  Rules whose body can fail to resolve a column
fall through to the later rules exactly where the source's `if col:` guards
do. -/
def plan_from_nl (question : String) (available_cols : List String) : Plan :=
  let q := strLower (strTrim question)
  let n := extractInt q
  let year := extractYear q
  let filters := extractFilters q available_cols
  if ["how many columns", "number of columns", "columns count", "col count",
      "dataset shape", "shape", "dimensions"].any (fun p => pyIn p q) then
    { type := "meta:shape" }
  else if ["list columns", "what are the columns", "show columns",
      "column names", "headers", "features", "schema"].any (fun p => pyIn p q) then
    { type := "meta:columns" }
  else if ["dtypes", "data types", "types of columns", "show dtypes"].any
      (fun p => pyIn p q) then
    { type := "meta:dtypes" }
  else if ["describe", "summary stats", "summary statistics", "stats"].any
      (fun p => pyIn p q) then
    { type := "meta:describe" }
  else if pyIn "head" q || pyIn "first rows" q || pyIn "show first" q then
    { type := "meta:head", n := some (pyOrInt n 5) }
  else if pyIn "tail" q || pyIn "last rows" q || pyIn "show last" q then
    { type := "meta:tail", n := some (pyOrInt n 5) }
  else if ["missing values", "nulls", "nans", "na values", "na summary"].any
      (fun p => pyIn p q) then
    { type := "meta:missing" }
  else if ["duplicate rows", "duplicates"].any (fun p => pyIn p q) then
    { type := "meta:duplicates" }
  else
    let uniqueCol :=
      if pyIn "unique" q || pyIn "distinct" q then
        resolveColFromText q available_cols
      else none
    match uniqueCol with
    | some c => { type := "unique_count", col := some c }
    | none =>
      let vcCol :=
        if ["value counts", "frequency", "distribution", "breakdown"].any
            (fun p => pyIn p q) then
          resolveColFromText q available_cols
        else none
      match vcCol with
      | some c => { type := "value_counts", col := some c, n := some (pyOrInt n 10) }
      | none =>
        if ["how many rows", "count rows", "row count", "number of rows",
            "rows"].any (fun w => pyIn w q) then
          match resolveColAfterByOrPer q available_cols with
          | some grp => { type := "group_count", group_by := some [grp] }
          | none =>
            let f := match year with
              | some y =>
                if available_cols.contains "year" then
                  dictSetF filters "year" (.lit (.intV y))
                else filters
              | none => filters
            { type := "aggregate", group_by := some [],
              ops := some [("*", "count")], filters := some f }
        else
          let topHit :=
            match findTop q.toList with
            | some (tn, g2) =>
              match resolveColFromText g2 available_cols with
              | some byCol => some (tn, byCol)
              | none => none
            | none => none
          match topHit with
          | some (tn, byCol) =>
            { type := "sort_top", by_ := some [byCol], ascending := some false,
              top_n := some (tn : Int), filters := some filters }
          | none =>
            if pyIn "sum" q || pyIn "total" q then
              let target := firstPresent available_cols
                ["scheduled_quantity", "shipments", "volume", "amount", "value"]
              let gb := resolveColAfterByOrPer q available_cols
              let gbList := match gb with
                | some g => [g]
                | none =>
                  if available_cols.contains "year" &&
                     (pyIn "by year" q || year.isSome) then ["year"] else []
              let f := match year with
                | some y =>
                  if available_cols.contains "year" then
                    dictSetF filters "year" (.lit (.intV y))
                  else filters
                | none => filters
              { type := "aggregate", group_by := some gbList,
                ops := some (match target with
                  | some c => [(c, "sum")]
                  | none => []),
                filters := some f }
            else if pyIn "average" q || pyIn "mean" q || pyIn "avg" q then
              let target :=
                (resolveColFromText q available_cols).orElse (fun _ =>
                  firstPresent available_cols
                    ["scheduled_quantity", "shipments", "volume", "delay_hours",
                     "amount", "value"])
              let gb := resolveColAfterByOrPer q available_cols
              let gbList := match gb with
                | some g => [g]
                | none =>
                  if available_cols.contains "year" &&
                     (pyIn "by year" q || year.isSome) then ["year"] else []
              let f := match year with
                | some y =>
                  if available_cols.contains "year" then
                    dictSetF filters "year" (.lit (.intV y))
                  else filters
                | none => filters
              { type := "aggregate", group_by := some gbList,
                ops := some (match target with
                  | some c => [(c, "mean")]
                  | none => []),
                filters := some f }
            else if pyIn "correlation" q || pyIn "correlate" q ||
                pyIn "relationship" q || pyIn "corr" q then
              { type := "correlation",
                cols := some (["scheduled_quantity", "shipments", "volume",
                  "delay_hours", "rec_del_sign"].filter
                    (fun c => available_cols.contains c)) }
            else if pyIn "outlier" q || pyIn "anomaly" q || pyIn "weird" q then
              let col :=
                (resolveColFromText q available_cols).orElse (fun _ =>
                  firstPresent available_cols
                    ["scheduled_quantity", "delay_hours", "volume", "shipments"])
              { type := "anomaly:zscore",
                col := col.orElse (fun _ => available_cols.head?),
                threshold := some 3 }
            else if pyIn "trend" q || pyIn "over time" q || pyIn "by year" q then
              let target :=
                (resolveColFromText q available_cols).orElse (fun _ =>
                  firstPresent available_cols
                    ["scheduled_quantity", "shipments", "volume", "delay_hours"])
              { type := "aggregate",
                group_by := some (if available_cols.contains "year" then ["year"] else []),
                ops := some (match target with
                  | some c => [(c, "mean")]
                  | none => []),
                filters := some [] }
            else
              { type := "aggregate", group_by := some [],
                ops := some [("*", "count")], filters := some [] }

/-! ### Plan executor (`src/agent.py:27-99`)

The method strings attached to results are simplified renderings of the
source's f-strings; no property below depends on their text. -/

/-- The inline filter of the executor's direct row-count path
(`src/agent.py:58-67`): only literal equality and dict `between` entries
are interpreted; any other dict predicate falls into the `else` branch and
is compared for *equality with the dict object*, which no cell satisfies
(unlike `apply_filters`, which interprets it). -/
def inlineCountStep (data : Table) (k : String) (v : FilterVal) :
    Except String Table :=
  if data.header.contains k then
    let s := colValues data k
    match v with
    | .pred p =>
      match p.between with
      | some (lo, hi) => do
          let a ← seriesCmp (fun x w => valLe w x) s lo
          let b ← seriesCmp valLe s hi
          pure (maskFilter data (andMask a b))
      | none => pure (maskFilter data (s.map (fun _ => false)))
    | .lit w => pure (maskFilter data (s.map (fun x => valEq x w)))
  else
    pure data

/-- `execute_plan(df, plan)` (`src/agent.py:27-99`): dispatch on the plan
type string, with the two wildcard-count special cases, the z-score column
fallback (which indexes the first numeric column and raises `IndexError`
when none exists), and the default ten-row preview for unknown types. -/
noncomputable def execute_plan (df : Table) (plan : Plan) :
    Except String (Table × String) :=
  let t := plan.type
  if t == "meta:shape" then pure (meta_shape df, "Dataset shape")
  else if t == "meta:columns" then pure (meta_columns df, "Columns and dtypes")
  else if t == "meta:dtypes" then pure (meta_dtypes df, "Data types")
  else if t == "meta:describe" then
    pure (meta_describe df, "Numeric summary statistics")
  else if t == "meta:head" then
    pure (meta_head df (plan.n.getD 5), "Head")
  else if t == "meta:tail" then
    pure (meta_tail df (plan.n.getD 5), "Tail")
  else if t == "meta:missing" then
    pure (missing_summary df, "Missing values by column")
  else if t == "meta:duplicates" then
    pure (duplicates_count df, "Duplicate rows count")
  else if t == "unique_count" then
    match plan.col with
    | some c => (unique_count df c).map (fun tb => (tb, "Unique count of " ++ c))
    | none => .error "KeyError: col"
  else if t == "value_counts" then
    match plan.col with
    | some c =>
      (value_counts df c (plan.n.getD 10)).map
        (fun tb => (tb, "Value counts for " ++ c))
    | none => .error "KeyError: col"
  else if t == "group_count" then
    pure (group_count df (plan.group_by.getD []), "Row counts by group")
  else if t == "aggregate" then
    let ops := plan.ops.getD []
    let filters := plan.filters.getD []
    let group_by := plan.group_by.getD []
    if ops == [("*", "count")] && !group_by.isEmpty then
      pure (group_count df group_by, "Row counts by group")
    else if ops == [("*", "count")] then
      (filters.foldlM (fun data kv => inlineCountStep data kv.1 kv.2) df).map
        (fun data =>
          ((⟨["row_count"], [[.intV data.rows.length]]⟩ : Table),
           "Row count with optional filters"))
    else
      (aggregate df group_by ops filters).map
        (fun tb => (tb, "Aggregate with group_by/filters"))
  else if t == "correlation" then
    pure (correlations df (plan.cols.getD []), "Pairwise Pearson correlations")
  else if t == "sort_top" then
    let bys := plan.by_.getD []
    let topN := plan.top_n.getD 10
    let asc := plan.ascending.getD false
    let flt := plan.filters.getD []
    (sort_top df bys topN asc flt).map (fun tb => (tb, "Sorted top rows"))
  else if strStarts t "anomaly:zscore" then
    let thr := plan.threshold.getD 3
    let resolved : Option String :=
      match plan.col with
      | some c => if df.header.contains c then some c else none
      | none => none
    match resolved with
    | some c =>
      (zscore_outliers df c thr).map (fun tb => (tb, "Z-score outliers on " ++ c))
    | none =>
      match (numericCols df).head? with
      | some c =>
        (zscore_outliers df c thr).map (fun tb => (tb, "Z-score outliers on " ++ c))
      | none => .error "IndexError: index 0 is out of bounds on empty numeric columns"
  else if t == "anomaly:iforest" then
    let cols := match plan.cols with
      | some (c :: cs) => c :: cs
      | _ => (numericCols df).take 4
    pure (iforest_outliers df cols (plan.contamination.getD (mkRat 1 100)),
      "IsolationForest anomalies")
  else
    pure (pyHead df 10, "Default preview")

/-! ## Lemmas about the filter engine -/

theorem maskFilter_header (t : Table) (m : List Bool) :
    (maskFilter t m).header = t.header := rfl

theorem maskFilter_len (t : Table) (m : List Bool) :
    (maskFilter t m).rows.length ≤ t.rows.length := by
  unfold maskFilter
  simp only [List.length_map]
  calc ((t.rows.zip m).filter (fun rm => rm.2)).length
      ≤ (t.rows.zip m).length := List.length_filter_le _ _
    _ ≤ t.rows.length := by rw [List.length_zip]; exact Nat.min_le_left _ _

theorem applyFilterEntry_header {d d' : Table} {k : String} {v : FilterVal}
    (h : applyFilterEntry d k v = .ok d') : d'.header = d.header := by
  unfold applyFilterEntry at h
  split at h
  · match v with
    | .lit w =>
      simp only [pure, Except.pure] at h
      cases h
      rfl
    | .pred p =>
      simp only [bind, Except.bind] at h
      split at h
      · exact absurd h (by simp)
      · simp only [pure, Except.pure] at h
        cases h
        rfl
  · simp only [pure, Except.pure] at h
    cases h
    rfl

theorem applyFilterEntry_len {d d' : Table} {k : String} {v : FilterVal}
    (h : applyFilterEntry d k v = .ok d') :
    d'.rows.length ≤ d.rows.length := by
  unfold applyFilterEntry at h
  split at h
  · match v with
    | .lit w =>
      simp only [pure, Except.pure] at h
      cases h
      exact maskFilter_len _ _
    | .pred p =>
      simp only [bind, Except.bind] at h
      split at h
      · exact absurd h (by simp)
      · simp only [pure, Except.pure] at h
        cases h
        exact maskFilter_len _ _
  · simp only [pure, Except.pure] at h
    cases h
    exact Nat.le_refl _

theorem applyFilters_ok_header {T T' : Table} {F : FilterSpec}
    (h : applyFilters T F = .ok T') : T'.header = T.header := by
  induction F generalizing T with
  | nil =>
    simp only [applyFilters, List.foldlM_nil, pure, Except.pure] at h
    cases h; rfl
  | cons kv rest ih =>
    simp only [applyFilters, List.foldlM_cons] at h
    cases he : applyFilterEntry T kv.1 kv.2 with
    | error e =>
      rw [he] at h
      simp only [bind, Except.bind] at h
      exact absurd h (by simp)
    | ok d =>
      rw [he] at h
      simp only [bind, Except.bind] at h
      have := ih (T := d) h
      rw [this, applyFilterEntry_header he]

/-- Claim C6, part two: a successful `apply_filters` never has more rows
than its input. -/
theorem applyFilters_ok_len {T T' : Table} {F : FilterSpec}
    (h : applyFilters T F = .ok T') :
    T'.rows.length ≤ T.rows.length := by
  induction F generalizing T with
  | nil =>
    simp only [applyFilters, List.foldlM_nil, pure, Except.pure] at h
    cases h; exact Nat.le_refl _
  | cons kv rest ih =>
    simp only [applyFilters, List.foldlM_cons] at h
    cases he : applyFilterEntry T kv.1 kv.2 with
    | error e =>
      rw [he] at h
      simp only [bind, Except.bind] at h
      exact absurd h (by simp)
    | ok d =>
      rw [he] at h
      simp only [bind, Except.bind] at h
      exact Nat.le_trans (ih (T := d) h) (applyFilterEntry_len he)

/-- Claim C6, part one: entries keyed by unknown columns are skipped, so
filtering by `F` is filtering by its known-column restriction. -/
theorem applyFilters_skips_unknown (T : Table) (F : FilterSpec) :
    applyFilters T F =
      applyFilters T (F.filter (fun kv => T.header.contains kv.1)) := by
  induction F generalizing T with
  | nil => rfl
  | cons kv rest ih =>
    by_cases hc : T.header.contains kv.1
    · simp only [applyFilters, List.foldlM_cons, List.filter_cons, hc, if_pos]
      cases he : applyFilterEntry T kv.1 kv.2 with
      | error e => simp [bind, Except.bind]
      | ok d =>
        simp only [bind, Except.bind]
        have hh : d.header = T.header := applyFilterEntry_header he
        have := ih (T := d)
        rw [applyFilters, applyFilters] at this
        rw [this, hh]
    · have hskip : applyFilterEntry T kv.1 kv.2 = .ok T := by
        unfold applyFilterEntry
        rw [if_neg (by simpa using hc)]
        rfl
      simp only [applyFilters, List.foldlM_cons, List.filter_cons, hskip]
      simp only [hc, if_neg, bind, Except.bind]
      exact ih T

theorem zipFilterMap_eq_filter (l : List α) (f : α → Bool) :
    ((l.zip (l.map f)).filter (fun rm => rm.2)).map (fun rm => rm.1) =
      l.filter f := by
  induction l with
  | nil => rfl
  | cons a t ih =>
    simp only [List.map_cons, List.zip_cons_cons, List.filter_cons]
    cases hfa : f a with
    | true => simp [ih]
    | false => simp [ih]

theorem maskFilter_map (t : Table) (f : List Value → Bool) :
    maskFilter t (t.rows.map f) = ⟨t.header, t.rows.filter f⟩ := by
  unfold maskFilter
  rw [zipFilterMap_eq_filter]

theorem andMask_left_id (s : List α) (m : List Bool)
    (h : m.length = s.length) :
    andMask (s.map (fun _ => true)) m = m := by
  induction s generalizing m with
  | nil => cases m with
    | nil => rfl
    | cons b mt => simp at h
  | cons a t ih =>
    cases m with
    | nil => simp at h
    | cons b mt =>
      simp only [List.map_cons, andMask, List.zipWith_cons_cons, Bool.true_and]
      rw [show List.zipWith (· && ·) (t.map (fun _ => true)) mt =
            andMask (t.map (fun _ => true)) mt from rfl,
          ih mt (by simpa using h)]

theorem andMask_right_id (s : List α) (m : List Bool)
    (h : m.length = s.length) :
    andMask m (s.map (fun _ => true)) = m := by
  induction s generalizing m with
  | nil => cases m with
    | nil => rfl
    | cons b mt => simp at h
  | cons a t ih =>
    cases m with
    | nil => simp at h
    | cons b mt =>
      simp only [List.map_cons, andMask, List.zipWith_cons_cons, Bool.and_true]
      rw [show List.zipWith (· && ·) mt (t.map (fun _ => true)) =
            andMask mt (t.map (fun _ => true)) from rfl,
          ih mt (by simpa using h)]

theorem predMask_contains (s : List Value) (v : Value) :
    predMask { containsP := some v } s =
      .ok (s.map (fun x => strContainsCI (pyStr x) (pyStr v))) := by
  unfold predMask
  simp only [bind, Except.bind, pure, Except.pure]
  repeat rw [andMask_left_id _ _ (by simp [andMask])]
  repeat rw [andMask_right_id _ _ (by simp [andMask])]

theorem predMask_startswith (s : List Value) (v : Value) :
    predMask { startswithP := some v } s =
      .ok (s.map (fun x => strStarts (pyStr x) (pyStr v))) := by
  unfold predMask
  simp only [bind, Except.bind, pure, Except.pure]
  repeat rw [andMask_left_id _ _ (by simp [andMask])]
  repeat rw [andMask_right_id _ _ (by simp [andMask])]

theorem predMask_endswith (s : List Value) (v : Value) :
    predMask { endswithP := some v } s =
      .ok (s.map (fun x => strEnds (pyStr x) (pyStr v))) := by
  unfold predMask
  simp only [bind, Except.bind, pure, Except.pure]
  repeat rw [andMask_left_id _ _ (by simp [andMask])]
  repeat rw [andMask_right_id _ _ (by simp [andMask])]

/-- `apply_filters` with one dict entry whose predicate mask is `m`. -/
theorem applyFilters_single_pred {T : Table} {k : String} {p : PredDict}
    {m : List Bool} (hk : T.header.contains k = true)
    (hm : predMask p (colValues T k) = .ok m) :
    applyFilters T [(k, .pred p)] = .ok (maskFilter T m) := by
  simp only [applyFilters, List.foldlM_cons, List.foldlM_nil, applyFilterEntry,
    hk, if_pos, hm, bind, Except.bind, pure, Except.pure]

/-- `apply_filters` with one literal (equality) entry. -/
theorem applyFilters_single_lit {T : Table} {k : String} (w : Value)
    (hk : T.header.contains k = true) :
    applyFilters T [(k, .lit w)] =
      .ok ⟨T.header, T.rows.filter (fun r => valEq (getCellD T.header k r) w)⟩ := by
  simp only [applyFilters, List.foldlM_cons, List.foldlM_nil, applyFilterEntry,
    hk, if_pos, bind, Except.bind, pure, Except.pure]
  rw [show (colValues T k).map (fun x => valEq x w) =
        T.rows.map (fun r => valEq (getCellD T.header k r) w) by
      simp [colValues, List.map_map]]
  rw [maskFilter_map]

theorem seriesCmp_ok_length {op : Value → Value → Except String Bool}
    {s : List Value} {v : Value} {m : List Bool}
    (h : seriesCmp op s v = .ok m) : m.length = s.length := by
  induction s generalizing m with
  | nil =>
    simp only [seriesCmp, pure, Except.pure] at h
    cases h; rfl
  | cons x t ih =>
    simp only [seriesCmp, bind, Except.bind] at h
    cases hb : op x v with
    | error e => rw [hb] at h; exact absurd h (by simp)
    | ok b =>
      rw [hb] at h
      cases hr : seriesCmp op t v with
      | error e => rw [hr] at h; exact absurd h (by simp)
      | ok r =>
        rw [hr] at h
        simp only [pure, Except.pure] at h
        cases h
        simpa using ih hr

theorem length_andMask (a b : List Bool) :
    (andMask a b).length = min a.length b.length := by
  simp [andMask]

theorem predMask_between (s : List Value) (lo hi : Value) :
    predMask { between := some (lo, hi) } s =
      (seriesCmp (fun x v => valLe v x) s lo).bind (fun a =>
        (seriesCmp valLe s hi).bind (fun b => .ok (andMask a b))) := by
  unfold predMask
  cases ha : seriesCmp (fun x v => valLe v x) s lo with
  | error e => simp [bind, Except.bind, ha]
  | ok a =>
    cases hb : seriesCmp valLe s hi with
    | error e => simp [bind, Except.bind, ha, hb]
    | ok b =>
      simp only [bind, Except.bind, ha, hb, pure, Except.pure]
      have la := seriesCmp_ok_length ha
      have lb := seriesCmp_ok_length hb
      repeat rw [andMask_left_id _ _ (by simp [andMask, la, lb])]
      repeat rw [andMask_right_id _ _ (by simp [andMask, la, lb])]

theorem getD_append_cons (l : List α) (x : α) (r : List α) (d : α) :
    (l ++ x :: r).getD l.length d = x := by
  induction l with
  | nil => rfl
  | cons a t ih => simpa using ih

theorem dedupAcc_subset {seen l : List (List Value)} {x : List Value}
    (h : x ∈ dedupAcc seen l) : x ∈ l := by
  induction l generalizing seen with
  | nil => simp [dedupAcc] at h
  | cons a t ih =>
    unfold dedupAcc at h
    split at h
    · exact List.mem_cons_of_mem _ (ih h)
    · cases h with
      | head => exact List.mem_cons_self _ _
      | tail _ hm => exact List.mem_cons_of_mem _ (ih hm)

/-! ## Claim theorems -/

/-- C1.  The spec's claim that `plan_from_nl("top 5 rows by volume",
["volume","region"])` yields the sort-top plan is false of the code, and
the spec (and the sort-top rule's own in-source example) is the evident
intent: the question contains the token `rows`, so the earlier row-count
rule fires, its `by`-suffix resolves `volume`, and a group-count plan is
returned — the sort-top rule is unreachable for any question matching its
own regex with a plural `rows` and a resolvable column.  This theorem
evaluates the planner at the spec's own example. -/
theorem c1_row_rule_intercepts_top_n :
    plan_from_nl "top 5 rows by volume" ["volume", "region"] =
      { type := "group_count", group_by := some ["volume"] } := by rfl

/-- C2.  The spec requires every per-question plan execution to degrade
gracefully, but the z-score fallback `df.select_dtypes(include=['number'])
.columns[0]` raises `IndexError` on a table with no numeric column when the
plan's target column is absent, aborting the session loop (there is no
try/except around `execute_plan`). -/
theorem c2_zscore_fallback_raises_without_numeric_column :
    execute_plan ⟨["name"], [[.strV "a"]]⟩
      { type := "anomaly:zscore", col := some "volume", threshold := some 3 } =
      .error "IndexError: index 0 is out of bounds on empty numeric columns" := by
  rfl

/-- C6.  `apply_filters` skips entries keyed by unknown columns (filtering
by `F` equals filtering by its known-key restriction, in particular it
never raises on account of such keys) and a successful
result never has more rows than the input. -/
theorem c6_apply_filters_lenient_and_shrinking :
    (∀ (T : Table) (F : FilterSpec),
      applyFilters T F =
        applyFilters T (F.filter (fun kv => T.header.contains kv.1))) ∧
    (∀ (T : Table) (F : FilterSpec) (T' : Table),
      applyFilters T F = .ok T' → T'.rows.length ≤ T.rows.length) ∧
    (∀ (T : Table) (F : FilterSpec),
      (∀ kv ∈ F, T.header.contains kv.1 = false) →
      applyFilters T F = .ok T) := by
  refine ⟨applyFilters_skips_unknown, fun _ _ _ h => applyFilters_ok_len h, ?_⟩
  intro T F hall
  rw [applyFilters_skips_unknown,
      List.filter_eq_nil_iff.mpr (fun kv hm => by
        rw [hall kv hm]; exact Bool.false_ne_true)]
  rfl

/-- Witness for C6 at a concrete table and a spec with an unknown key. -/
theorem c6_witness :
    ([[Value.intV 1]] : List (List Value)).length ≤
      ([[Value.intV 1], [Value.intV 2]] : List (List Value)).length ∧
    applyFilters ⟨["a"], [[.intV 1]]⟩ [("zzz", .lit (.intV 5))] =
      .ok ⟨["a"], [[.intV 1]]⟩ :=
  ⟨c6_apply_filters_lenient_and_shrinking.2.1
    ⟨["a"], [[.intV 1], [.intV 2]]⟩
    [("zzz", .lit (.intV 5)), ("a", .lit (.intV 1))]
    ⟨["a"], [[.intV 1]]⟩ (by rfl),
   c6_apply_filters_lenient_and_shrinking.2.2
    ⟨["a"], [[.intV 1]]⟩ [("zzz", .lit (.intV 5))] (by decide)⟩

/-- C8.  `apply_filters(T, {})` (equally a `None` spec, which the source's
`if not filters` treats identically) returns a copy: in the heap model the
result is a fresh object at a fresh index, its content equals the input's,
and overwriting the result leaves the input unchanged. -/
theorem c8_empty_filter_returns_fresh_copy
    (store : List Table) (i : Nat) (h : i < store.length) :
    applyFiltersAlloc store i [] =
      .ok (store ++ [store.getD i ⟨[], []⟩], store.length) ∧
    (store ++ [store.getD i ⟨[], []⟩]).getD store.length ⟨[], []⟩ =
      store.getD i ⟨[], []⟩ ∧
    store.length ≠ i ∧
    ∀ u : Table,
      ((store ++ [store.getD i ⟨[], []⟩]).set store.length u).getD i ⟨[], []⟩ =
        store.getD i ⟨[], []⟩ := by
  refine ⟨rfl, ?_, ?_, ?_⟩
  · simp [List.getD]
  · exact fun he => absurd (he ▸ h) (Nat.lt_irrefl _)
  · intro u
    simp only [List.getD_eq_getElem?_getD]
    rw [List.getElem?_set_ne
          (by exact fun he => absurd (he ▸ h) (Nat.lt_irrefl _))]
    rw [List.getElem?_append_left h]

/-- Witness for C8 on a one-table store. -/
theorem c8_witness :
    applyFiltersAlloc [(⟨["a"], [[.intV 1]]⟩ : Table)] 0 [] =
      .ok ([⟨["a"], [[.intV 1]]⟩, ⟨["a"], [[.intV 1]]⟩], 1) ∧
    ([(⟨["a"], [[.intV 1]]⟩ : Table), ⟨["a"], [[.intV 1]]⟩].set 1
        ⟨["mutated"], []⟩).getD 0 ⟨[], []⟩ = ⟨["a"], [[.intV 1]]⟩ := by
  have h := c8_empty_filter_returns_fresh_copy
    [(⟨["a"], [[.intV 1]]⟩ : Table)] 0 (by decide)
  exact ⟨h.1, h.2.2.2 ⟨["mutated"], []⟩⟩

/-- C9.  `aggregate` with an empty (or `None`) ops map returns the filtered
table itself — all rows and columns after `apply_filters`, not a one-row
aggregate and not an error — and the planner does produce such empty-ops
aggregate plans when a sum/total question resolves no target column
(witnessed by "total" over columns `["region"]`, where neither the
preference list nor the fuzzy fallback resolves). -/
theorem c9_empty_ops_returns_filtered_table :
    (∀ (df : Table) (gb : List String) (f : FilterSpec),
      aggregate df gb [] f = applyFilters df f) ∧
    plan_from_nl "total" ["region"] =
      { type := "aggregate", group_by := some [], ops := some [],
        filters := some [] } := by
  constructor
  · intro df gb f
    unfold aggregate
    cases h : applyFilters df f with
    | error e => simp [bind, Except.bind, h]
    | ok data => simp [bind, Except.bind, h, pure, Except.pure, List.isEmpty]
  · rfl

/-- C10.  A `where <col> = <val>` phrase stores the coerced literal: ints
parse as ints, otherwise floats, otherwise short strings (length ≤ 5) are
uppercased and longer ones kept as-is; the planner stores `'TX'` for `tx`
and equality filtering then compares against the uppercased form
(case-sensitively, so a lowercase data cell does not match). -/
theorem c10_where_literal_coercion :
    plan_from_nl "how many rows where region = tx" ["region"] =
      { type := "aggregate", group_by := some [],
        ops := some [("*", "count")],
        filters := some [("region", .lit (.strV "TX"))] } ∧
    coerceLiteral "tx" = .strV "TX" ∧
    coerceLiteral "2024" = .intV 2024 ∧
    coerceLiteral "texas1" = .strV "texas1" ∧
    (∀ rows : List (List Value),
      applyFilters ⟨["region"], rows⟩
          (extractFilters "where region = tx" ["region"]) =
        .ok ⟨["region"],
          rows.filter (fun r =>
            valEq (getCellD ["region"] "region" r) (.strV "TX"))⟩) ∧
    valEq (.strV "tx") (.strV "TX") = false := by
  refine ⟨rfl, rfl, rfl, rfl, ?_, rfl⟩
  intro rows
  have he : extractFilters "where region = tx" ["region"] =
      [("region", .lit (.strV "TX"))] := by rfl
  rw [he]
  exact applyFilters_single_lit (T := ⟨["region"], rows⟩) (.strV "TX") (by rfl)

/-- C3 counterexample.  The claim that all three string predicates compare
case-insensitively and that a missing value never satisfies one is false:
`startswith 'a'` rejects the cell `'Abc'` (pandas `str.startswith` is
case-sensitive; case-insensitively it would match), and a missing cell is
stringified by `astype(str)` to `"nan"`, which does satisfy
`contains 'na'`. -/
theorem c3_counterexample :
    applyFilters ⟨["c"], [[.strV "Abc"]]⟩
        [("c", .pred { startswithP := some (.strV "a") })] =
      .ok ⟨["c"], []⟩ ∧
    applyFilters ⟨["c"], [[.null]]⟩
        [("c", .pred { containsP := some (.strV "na") })] =
      .ok ⟨["c"], [[.null]]⟩ := ⟨by rfl, by rfl⟩

/-- C3 (amended).  All three string predicates coerce the column to text
with missing values rendered as `"nan"`; `contains` compares
case-insensitively but `startswith` and `endswith` compare case-sensitively;
a missing value satisfies a predicate exactly when the text `"nan"` does.
(The pattern-literal hypothesis records the modelling assumption that the
pandas `contains` pattern, which is read as a regex, has no
metacharacters — every pattern the planner can build satisfies it.) -/
theorem c3_amended_string_predicate_semantics (T : Table) (k pat : String)
    (hk : T.header.contains k = true)
    (_hpat : pat.toList.all
      (fun c => c.isAlphanum || c = '_' || c = '/' || c = '-' || c = ' ') = true) :
    applyFilters T [(k, .pred { containsP := some (.strV pat) })] =
      .ok ⟨T.header, T.rows.filter (fun r =>
        strContainsCI (pyStr (getCellD T.header k r)) pat)⟩ ∧
    applyFilters T [(k, .pred { startswithP := some (.strV pat) })] =
      .ok ⟨T.header, T.rows.filter (fun r =>
        strStarts (pyStr (getCellD T.header k r)) pat)⟩ ∧
    applyFilters T [(k, .pred { endswithP := some (.strV pat) })] =
      .ok ⟨T.header, T.rows.filter (fun r =>
        strEnds (pyStr (getCellD T.header k r)) pat)⟩ ∧
    pyStr .null = "nan" := by
  refine ⟨?_, ?_, ?_, rfl⟩
  · rw [applyFilters_single_pred hk (predMask_contains _ _)]
    rw [show (colValues T k).map
          (fun x => strContainsCI (pyStr x) (pyStr (.strV pat))) =
        T.rows.map (fun r => strContainsCI (pyStr (getCellD T.header k r)) pat) by
      simp [colValues, List.map_map, pyStr]]
    rw [maskFilter_map]
  · rw [applyFilters_single_pred hk (predMask_startswith _ _)]
    rw [show (colValues T k).map
          (fun x => strStarts (pyStr x) (pyStr (.strV pat))) =
        T.rows.map (fun r => strStarts (pyStr (getCellD T.header k r)) pat) by
      simp [colValues, List.map_map, pyStr]]
    rw [maskFilter_map]
  · rw [applyFilters_single_pred hk (predMask_endswith _ _)]
    rw [show (colValues T k).map
          (fun x => strEnds (pyStr x) (pyStr (.strV pat))) =
        T.rows.map (fun r => strEnds (pyStr (getCellD T.header k r)) pat) by
      simp [colValues, List.map_map, pyStr]]
    rw [maskFilter_map]

/-- Witness for the amended C3 on a concrete mixed-case table with a
missing cell. -/
theorem c3_amended_witness :
    applyFilters ⟨["c"], [[.strV "Abc"], [.null]]⟩
        [("c", .pred { containsP := some (.strV "AB") })] =
      .ok ⟨["c"],
        [[Value.strV "Abc"], [Value.null]].filter (fun r =>
          strContainsCI (pyStr (getCellD ["c"] "c" r)) "AB")⟩ :=
  (c3_amended_string_predicate_semantics ⟨["c"], [[.strV "Abc"], [.null]]⟩
    "c" "AB" (by rfl) (by rfl)).1

/-- C4 counterexample.  The claim that the executor's direct row-count path
has the same filter semantics as `apply_filters` "including dict-valued
predicates such as contains" is false: on the table `{'c': ['xy']}` with
filters `{'c': {'contains': 'x'}}`, `apply_filters` keeps the row, but the
inline path compares the column for equality with the dict and counts 0. -/
theorem c4_counterexample :
    execute_plan ⟨["c"], [[.strV "xy"]]⟩
        { type := "aggregate", group_by := some [],
          ops := some [("*", "count")],
          filters := some [("c", .pred { containsP := some (.strV "x") })] } =
      .ok (⟨["row_count"], [[.intV 0]]⟩, "Row count with optional filters") ∧
    applyFilters ⟨["c"], [[.strV "xy"]]⟩
        [("c", .pred { containsP := some (.strV "x") })] =
      .ok ⟨["c"], [[.strV "xy"]]⟩ := ⟨by rfl, by rfl⟩

/-- C4 (amended).  For an ops map exactly `{'*': 'count'}`: with non-empty
group-by the executor reroutes to the group-count operation (ignoring
filters); with empty group-by it computes the row count with an inline
filter whose steps agree with `apply_filters` on literal equality entries
and on between-only dicts, but a dict predicate without `between` (such as
`contains`) is compared for equality with the dict itself and keeps no
rows, unlike `apply_filters`. -/
theorem c4_amended_wildcard_count_paths (df : Table) (p : Plan)
    (ht : p.type = "aggregate") (hops : p.ops = some [("*", "count")]) :
    (∀ gb, p.group_by = some gb → gb ≠ [] →
      execute_plan df p = .ok (group_count df gb, "Row counts by group")) ∧
    ((p.group_by = none ∨ p.group_by = some []) →
      execute_plan df p =
        ((p.filters.getD []).foldlM
            (fun d kv => inlineCountStep d kv.1 kv.2) df).map
          (fun data =>
            ((⟨["row_count"], [[.intV data.rows.length]]⟩ : Table),
             "Row count with optional filters"))) ∧
    (∀ (d : Table) (k : String) (w : Value),
      inlineCountStep d k (.lit w) = applyFilterEntry d k (.lit w)) ∧
    (∀ (d : Table) (k : String) (lo hi : Value),
      inlineCountStep d k (.pred { between := some (lo, hi) }) =
        applyFilterEntry d k (.pred { between := some (lo, hi) })) ∧
    (∀ (d : Table) (k : String) (p' : PredDict),
      p'.between = none → d.header.contains k = true →
      inlineCountStep d k (.pred p') = .ok ⟨d.header, []⟩) := by
  refine ⟨?_, ?_, ?_, ?_, ?_⟩
  · intro gb hgb hne
    unfold execute_plan
    rw [ht]
    simp only [hops, hgb, Option.getD_some]
    rw [if_neg (by decide), if_neg (by decide), if_neg (by decide),
        if_neg (by decide), if_neg (by decide), if_neg (by decide),
        if_neg (by decide), if_neg (by decide), if_neg (by decide),
        if_neg (by decide), if_neg (by decide), if_pos (by decide)]
    rw [if_pos (by
      simp only [beq_self_eq_true, Bool.true_and, Bool.not_eq_true']
      cases gb with
      | nil => exact absurd rfl hne
      | cons a l => rfl)]
    rfl
  · intro hgb
    unfold execute_plan
    rw [ht]
    have hg : p.group_by.getD [] = [] := by
      cases hgb with
      | inl h => rw [h]; rfl
      | inr h => rw [h]; rfl
    simp only [hops, hg, Option.getD_some]
    rw [if_neg (by decide), if_neg (by decide), if_neg (by decide),
        if_neg (by decide), if_neg (by decide), if_neg (by decide),
        if_neg (by decide), if_neg (by decide), if_neg (by decide),
        if_neg (by decide), if_neg (by decide), if_pos (by decide)]
    rw [if_neg (by decide), if_pos (by decide)]
  · intro d k w
    rfl
  · intro d k lo hi
    unfold inlineCountStep applyFilterEntry
    by_cases hc : d.header.contains k
    · rw [if_pos hc, if_pos hc]
      simp only
      rw [predMask_between]
      cases ha : seriesCmp (fun x v => valLe v x) (colValues d k) lo with
      | error e => simp [bind, Except.bind, ha]
      | ok a =>
        cases hb : seriesCmp valLe (colValues d k) hi with
        | error e => simp [bind, Except.bind, ha, hb]
        | ok b => simp [bind, Except.bind, ha, hb, pure, Except.pure]
    · rw [if_neg hc, if_neg hc]
  · intro d k p' hbet hc
    unfold inlineCountStep
    rw [if_pos hc]
    simp only [hbet]
    rw [show (colValues d k).map (fun _ => false) =
          d.rows.map (fun _ => false) by simp [colValues, List.map_map]]
    rw [maskFilter_map]
    simp only [List.filter_false]
    rfl

/-- Witness for the amended C4 on a concrete table and plan. -/
theorem c4_amended_witness :
    execute_plan ⟨["g"], [[.strV "x"], [.strV "x"]]⟩
        { type := "aggregate", group_by := some ["g"],
          ops := some [("*", "count")], filters := some [] } =
      .ok (group_count ⟨["g"], [[.strV "x"], [.strV "x"]]⟩ ["g"],
        "Row counts by group") ∧
    inlineCountStep ⟨["c"], [[.strV "xy"]]⟩ "c"
        (.pred { containsP := some (.strV "x") }) =
      .ok ⟨["c"], []⟩ := by
  have h := c4_amended_wildcard_count_paths
    ⟨["g"], [[.strV "x"], [.strV "x"]]⟩
    { type := "aggregate", group_by := some ["g"],
      ops := some [("*", "count")], filters := some [] } rfl rfl
  have h2 := c4_amended_wildcard_count_paths
    (⟨["c"], [[.strV "xy"]]⟩ : Table)
    { type := "aggregate", group_by := some [],
      ops := some [("*", "count")],
      filters := some [("c", .pred { containsP := some (.strV "x") })] }
    rfl rfl
  exact ⟨h.1 ["g"] rfl (by decide),
    h2.2.2.2.2 ⟨["c"], [[.strV "xy"]]⟩ "c"
      { containsP := some (.strV "x") } rfl (by rfl)⟩

/-- C5.  When a grouped `aggregate` call whose ops map requests the
wildcard row count succeeds, every group of the filtered data's size count
appears in the output (the size counts are the left side of the merge):
some output row starts with the group's key values — null keys included,
since `dropna=False` keeps them — and carries the group's row count right
after them, whatever the co-requested aggregates (null on all-null input)
contributed on the right of the join. -/
theorem c5_wildcard_count_preserves_groups
    (df data out : Table) (gb : List String) (ops : List (String × String))
    (f : FilterSpec)
    (hstar : dictGet ops "*" = some "count")
    (hgb : gb ≠ [])
    (hfil : applyFilters df f = .ok data)
    (hok : aggregate df gb ops f = .ok out) :
    ∀ κ ∈ groupKeys data gb,
      ∃ r ∈ out.rows, r.take gb.length = κ ∧
        r.getD gb.length Value.null = .intV (groupRows data gb κ).length := by
  intro κ hκ
  have hκlen : κ.length = gb.length := by
    have := dedupAcc_subset hκ
    obtain ⟨row, _, hr⟩ := List.mem_map.mp this
    rw [← hr]
    simp [rowKey]
  unfold aggregate at hok
  rw [hfil] at hok
  simp only [bind, Except.bind] at hok
  have hne : ops.isEmpty = false := by
    cases ops with
    | nil => simp [dictGet] at hstar
    | cons a l => rfl
  have hgbe : gb.isEmpty = false := by
    cases gb with
    | nil => exact absurd rfl hgb
    | cons a l => rfl
  rw [hne] at hok
  simp only [Bool.false_eq_true, if_false] at hok
  rw [hgbe] at hok
  simp only [Bool.false_eq_true, if_false] at hok
  unfold aggregateGrouped at hok
  split at hok
  · split at hok
    · simp only [bind, Except.bind] at hok
      split at hok
      · exact absurd hok (by simp)
      · rw [hstar] at hok
        simp only [beq_self_eq_true, if_pos, pure, Except.pure] at hok
        cases hok
        refine ⟨_, List.mem_map_of_mem _ (List.mem_map_of_mem _ hκ), ?_⟩
        simp only
        set cnt := Value.intV (groupRows data gb κ).length with hcnt
        have hform : ∀ X : List Value,
            ((κ ++ [cnt]) ++ X).take gb.length = κ ∧
            ((κ ++ [cnt]) ++ X).getD gb.length Value.null = cnt := by
          intro X
          constructor
          · rw [List.append_assoc]
            exact List.take_left' hκlen
          · rw [List.append_assoc, ← hκlen]
            exact getD_append_cons κ cnt X Value.null
        split
        · exact hform _
        · exact hform _
    · exact absurd hok (by simp)
  · exact absurd hok (by simp)

/-- Witness for C5: a two-group table where one group's key is null and its
`min` aggregate input is all-null (the group still appears, count 2,
aggregate null). -/
theorem c5_witness :
    ∃ r ∈ (⟨["g", "row_count", "v"],
        [[Value.strV "a", Value.intV 2, Value.null],
         [Value.null, Value.intV 1, Value.intV 7]]⟩ : Table).rows,
      r.take 1 = [Value.null] ∧
      r.getD 1 Value.null = Value.intV 1 :=
  c5_wildcard_count_preserves_groups
    ⟨["g", "v"], [[.strV "a", .null], [.strV "a", .null], [.null, .intV 7]]⟩
    ⟨["g", "v"], [[.strV "a", .null], [.strV "a", .null], [.null, .intV 7]]⟩
    ⟨["g", "row_count", "v"],
      [[.strV "a", .intV 2, .null], [.null, .intV 1, .intV 7]]⟩
    ["g"] [("*", "count"), ("v", "min")] []
    rfl (by decide) (by rfl) (by rfl)
    [Value.null] (by decide)

/-- Helper for C7: a successful z-score run keeps exactly the rows whose
distance from the NaN-skipping mean reaches `threshold * (std(ddof=0) +
1e-9)` — the threshold is inclusive and missing rows are never kept. -/
theorem zscore_characterization (df : Table) (col : String) (t : ℚ)
    (os : List (Option ℚ))
    (hk : df.header.contains col = true)
    (hos : colFloats df col = .ok os) :
    zscore_outliers df col t =
      .ok (maskFilter df (os.map (fun o =>
        match o with
        | none => false
        | some q =>
          decide ((t : ℝ) * (zstd os + 1e-9) ≤ |(q : ℝ) - zmean os|)))) := by
  unfold zscore_outliers
  rw [hk]
  simp only [if_true, hos, bind, Except.bind, pure, Except.pure]
  congr 2
  unfold zscoreSelect
  apply List.map_congr_left
  intro o _
  cases o with
  | none => rfl
  | some q =>
    simp only
    rw [decide_eq_decide]
    have hpos : (0:ℝ) < zstd os + 1e-9 :=
      add_pos_of_nonneg_of_pos (Real.sqrt_nonneg _) (by norm_num)
    rw [ge_iff_le, abs_div, abs_of_pos hpos, le_div_iff₀ hpos]

/-- C7.  `zscore_outliers` selects by `|z| ≥ threshold` with
`z = (x − mean)/(std(ddof=0) + 1e-9)` — population standard deviation
(denominator N, see `zstd`), additive epsilon, inclusive threshold — which
multiplies out to the distance characterization below; and on the constant
column `[5, 5, 5, 5]` with threshold 3.0 it returns zero rows, the epsilon
preventing any division by zero. -/
theorem c7_zscore_population_std_inclusive :
    (∀ (df : Table) (col : String) (t : ℚ) (os : List (Option ℚ)),
      df.header.contains col = true →
      colFloats df col = .ok os →
      zscore_outliers df col t =
        .ok (maskFilter df (os.map (fun o =>
          match o with
          | none => false
          | some q =>
            decide ((t : ℝ) * (zstd os + 1e-9) ≤ |(q : ℝ) - zmean os|))))) ∧
    zscore_outliers ⟨["v"], [[.intV 5], [.intV 5], [.intV 5], [.intV 5]]⟩ "v" 3 =
      .ok ⟨["v"], []⟩ := by
  refine ⟨zscore_characterization, ?_⟩
  have hos : colFloats ⟨["v"], [[.intV 5], [.intV 5], [.intV 5], [.intV 5]]⟩ "v" =
      .ok [some 5, some 5, some 5, some 5] := by rfl
  rw [zscore_characterization _ _ _ _ (by rfl) hos]
  have hmean : zmean [some (5:ℚ), some 5, some 5, some 5] = 5 := by
    unfold zmean presentVals
    norm_num [List.filterMap]
  have hstd : zstd [some (5:ℚ), some 5, some 5, some 5] = 0 := by
    unfold zstd presentVals
    rw [show ((([some (5:ℚ), some 5, some 5, some 5].filterMap id).map
          (fun q => (q : ℝ))).map
            (fun x => (x - zmean [some (5:ℚ), some 5, some 5, some 5]) ^ 2)).sum = 0 by
      norm_num [List.filterMap, hmean]]
    norm_num [Real.sqrt_eq_zero']
  rw [show ([some (5:ℚ), some 5, some 5, some 5].map (fun o =>
      match o with
      | none => false
      | some q =>
        decide ((((3:ℚ)) : ℝ) * (zstd [some (5:ℚ), some 5, some 5, some 5] + 1e-9) ≤
          |(q : ℝ) - zmean [some (5:ℚ), some 5, some 5, some 5]|))) =
      [false, false, false, false] by
    simp only [List.map_cons, List.map_nil, hmean, hstd]
    norm_num]
  rfl

/-- Witness for C7: the characterization applied at the constant column. -/
theorem c7_witness :
    zscore_outliers ⟨["v"], [[.intV 5], [.intV 5], [.intV 5], [.intV 5]]⟩ "v" 3 =
      .ok (maskFilter ⟨["v"], [[.intV 5], [.intV 5], [.intV 5], [.intV 5]]⟩
        ([some (5:ℚ), some 5, some 5, some 5].map (fun o =>
          match o with
          | none => false
          | some q =>
            decide ((((3:ℚ)) : ℝ) *
                (zstd [some (5:ℚ), some 5, some 5, some 5] + 1e-9) ≤
              |(q : ℝ) - zmean [some (5:ℚ), some 5, some 5, some 5]|)))) :=
  c7_zscore_population_std_inclusive.1 _ "v" 3
    [some 5, some 5, some 5, some 5] (by rfl) (by rfl)

end SynMax
